import Mathlib

/-!
# Saudi Music Community Database: the request-interception cache (`sw.js`)

A shallow embedding of the service worker of the repository, and of the search
and the cache simulation of its directory (`data.js`, `github_data_js.js`), with
the properties its specification states about them.

## How the program is modelled

* A `Request` is its URL, its method and its headers; a `Response` is an
  immutable snapshot (status, status text, headers, body, type), so
  `response.clone()` is the identity.
* `CacheStorage` (the global `caches`) is the list of named stores in creation
  order, each store a list of (request, response) entries in insertion order.
  A look-up follows the Cache API: only a `GET` request finds anything, URLs are
  compared without their fragment, and the `Vary` header of a stored response
  is honoured. `cache.put` rejects a request that is not a `GET`, a request
  whose URL is not an `http` or `https` URL, a response of status 206 and a
  response with `Vary: *`.
* `new Response(body, init)` throws as the Fetch standard says: a `RangeError`
  for a status outside 200..599, a `TypeError` for a status text that is not a
  reason phrase and for a body given with a null body status.
* Promises are run to completion: a handler is a function from the state before
  the event and the outcomes the environment delivers (the network, the clock,
  the date parser, failing deletions) to the state after every promise the
  handler started has settled, together with a trace of what the handler did
  (network requests issued, `caches.match` calls, `cache.put` calls, log lines,
  rejections nobody handles).
* Reading, opening and deleting a store succeed, and a store has room for what
  is put into it; the one exception is `caches.delete` during activation, whose
  failure the specification discusses and which is therefore an input.
* A URL is the string `request.url` holds; a relative URL, such as those of
  `urlsToCache`, stands for the URL it resolves to against the URL of the
  worker.
* A cell of the directory, or a filter of a search, is any JavaScript value,
  modelled by the two things the search observes of it: whether it is truthy
  and what `String(value)` is.
-/

namespace SaudiMusicDb

/-! ## Strings -/

/-- Whether the characters `p` start the characters `s`. -/
def startsWith : List Char → List Char → Bool
  | _, [] => true
  | [], _ :: _ => false
  | c :: cs, p :: ps => c == p && startsWith cs ps

/-- Whether `t` occurs in `s` as a contiguous run of characters. -/
def includesChars : List Char → List Char → Bool
  | [], t => startsWith [] t
  | c :: cs, t => startsWith (c :: cs) t || includesChars cs t

/-- JavaScript `s.includes(t)`. -/
def includes (s t : String) : Bool := includesChars s.data t.data

/-- ASCII lower-casing, as applied to header names by the `Headers` class. -/
def lower (s : String) : String := String.mk (s.data.map Char.toLower)

/-! ## Requests, responses and headers -/

/-- A header list: (name, value) pairs in order. -/
abbrev Headers := List (String × String)

/-- JavaScript `headers.get(name)`: the values of the headers of that name
(compared case-insensitively) joined by a comma and a space, `null` when there
is none. -/
def headersGet (h : Headers) (name : String) : Option String :=
  match (h.filter (fun e => lower e.1 == lower name)).map Prod.snd with
  | [] => none
  | v :: vs => some (", ".intercalate (v :: vs))

/-- The value of the first header of that name is replaced, every later header
of that name is removed. -/
def headersSetFirst : Headers → String → String → Headers
  | [], _, _ => []
  | e :: rest, name, value =>
    if lower e.1 == lower name then
      (e.1, value) :: rest.filter (fun e' => !(lower e'.1 == lower name))
    else e :: headersSetFirst rest name value

/-- JavaScript `headers.set(name, value)`: replaces the header of that name when
there is one, appends it otherwise. -/
def headersSet (h : Headers) (name value : String) : Headers :=
  if h.any (fun e => lower e.1 == lower name) then headersSetFirst h name value
  else h ++ [(name, value)]

/-- A request: `request.url`, `request.method` and `request.headers`. -/
structure Request where
  url : String
  method : String
  headers : Headers
deriving DecidableEq, Repr

/-- JavaScript `new Request(url)`: a `GET` request without headers, which is
what `cache.addAll` makes of a URL. -/
def getRequest (url : String) : Request :=
  { url := url, method := "GET", headers := [] }

/-- A response snapshot. `type` is the `response.type` string of the Fetch
standard: "basic", "cors", "default", "error", "opaque", "opaqueredirect". What
`fetch` resolves with for a cross-origin request in `no-cors` mode is of type
"opaque": its status is 0, its header list is empty and its body is null. -/
structure Response where
  status : Nat
  statusText : String
  headers : Headers
  body : Option String
  type : String
deriving DecidableEq, Repr

/-- What a JavaScript exception was. -/
inductive Exn where
  | rangeError
  | typeError
deriving DecidableEq, Repr

/-- Whether a status text is a reason phrase of HTTP: tabs, spaces, visible
ASCII characters and the bytes 128..255. -/
def isReasonPhrase (statusText : String) : Bool :=
  statusText.data.all (fun c =>
    c.toNat == 9 || (32 ≤ c.toNat && c.toNat ≤ 126) || (128 ≤ c.toNat && c.toNat ≤ 255))

/-- The null body statuses of the Fetch standard. -/
def isNullBodyStatus (status : Nat) : Bool :=
  status == 101 || status == 103 || status == 204 || status == 205 || status == 304

/-- JavaScript `new Response(body, { status, statusText, headers })`, `body`
being the (possibly null) body of another response. The constructor throws a
`RangeError` when `status` is outside 200..599, then a `TypeError` when
`statusText` is not a reason phrase, then a `TypeError` when a body is given
with a null body status; otherwise it builds a response of type "default". -/
def newResponse (body : Option String) (status : Nat) (statusText : String)
    (headers : Headers) : Except Exn Response :=
  if ¬ (200 ≤ status ∧ status ≤ 599) then .error .rangeError
  else if isReasonPhrase statusText = false then .error .typeError
  else if body.isSome = true ∧ isNullBodyStatus status = true then .error .typeError
  else
    .ok { status := status, statusText := statusText, headers := headers,
          body := body, type := "default" }

/-- JavaScript `new Response(text, { status, statusText })` with a string body:
as `newResponse`, and the string body sets the content type. -/
def newTextResponse (text : String) (status : Nat) (statusText : String) :
    Except Exn Response :=
  newResponse (some text) status statusText
    [("content-type", "text/plain;charset=UTF-8")]

/-! ## The stores -/

/-- One named store: its entries, request and response, oldest first. -/
abbrev Cache := List (Request × Response)

/-- The global `caches`: the named stores, in creation order. -/
abbrev CacheStorage := List (String × Cache)

/-- A URL without its fragment (what follows the first `#`, the `#` included). -/
def stripFragment (url : String) : String :=
  String.mk (url.data.takeWhile (fun c => !(c == '#')))

/-- The scheme of a URL, in lower case: the letters, digits, `+`, `-` and `.`
before its first `:`, the first of them a letter; `none` when the URL does not
begin in this way and is therefore relative. -/
def urlScheme (url : String) : Option String :=
  let name := url.data.takeWhile
    (fun c => c.isAlphanum || c == '+' || c == '-' || c == '.')
  match url.data.drop name.length with
  | ':' :: _ =>
    match name with
    | first :: _ => if first.isAlpha then some (lower (String.mk name)) else none
    | [] => none
  | _ => none

/-- Whether the URL of a request is an `http` or `https` URL once resolved. A
relative URL is resolved against the URL of the worker, which is an `http` or
`https` URL, since no worker is registered from another scheme. -/
def hasHttpScheme (url : String) : Bool :=
  match urlScheme url with
  | some scheme => scheme == "http" || scheme == "https"
  | none => true

/-- Characters without the spaces and tabs around them. -/
def trimBlanks (cs : List Char) : List Char :=
  ((cs.dropWhile (fun c => c == ' ' || c == '\t')).reverse.dropWhile
    (fun c => c == ' ' || c == '\t')).reverse

/-- The field names listed by the `Vary` header of a response. -/
def varyFields (response : Response) : List String :=
  match headersGet response.headers "vary" with
  | some value =>
    (value.data.splitOnP (fun c => c == ',')).map (fun cs => String.mk (trimBlanks cs))
  | none => []

/-- Whether a response may not be stored because of `Vary: *`. -/
def variesOnAll (response : Response) : Bool :=
  (varyFields response).any (fun field => field == "*")

/-- The Cache API's "request matches cached item": the query is a `GET`, its URL
equals the URL of the stored request, fragments excluded, and for every field
name of the `Vary` header of the stored response (none of which may be `*`) the
query and the stored request carry the same value. -/
def requestMatches (query : Request) (cached : Request) (response : Response) :
    Bool :=
  query.method == "GET" &&
    stripFragment query.url == stripFragment cached.url &&
    (varyFields response).all (fun field =>
      !(field == "*") && headersGet cached.headers field == headersGet query.headers field)

/-- JavaScript `cache.match(request)`: the response of the first entry the
request matches. -/
def cacheMatch (c : Cache) (request : Request) : Option Response :=
  (c.find? (fun e => requestMatches request e.1 e.2)).map Prod.snd

/-- The put operation of the Cache API once the pair is accepted: the entries
the request matches are removed and the new entry is added. -/
def cacheStore (c : Cache) (request : Request) (r : Response) : Cache :=
  c.filter (fun e => !(requestMatches request e.1 e.2)) ++ [(request, r)]

/-- Whether `cache.put(request, response)` accepts the pair: the request is a
`GET` of an `http` or `https` URL, the response is not partial (status 206) and
has no `Vary: *`. -/
def putAccepts (request : Request) (r : Response) : Bool :=
  request.method == "GET" && hasHttpScheme request.url && !(r.status == 206) &&
    !(variesOnAll r)

/-- JavaScript `cache.put(request, response)`: `none` when the promise rejects
(with a `TypeError`, nothing being stored), the store afterwards otherwise. -/
def cachePut (c : Cache) (request : Request) (r : Response) : Option Cache :=
  if putAccepts request r then some (cacheStore c request r) else none

/-- JavaScript `caches.match(request)`: the stores are searched in creation
order and the first store that has an entry the request matches answers. -/
def cachesMatch (cs : CacheStorage) (request : Request) : Option Response :=
  cs.findSome? (fun s => cacheMatch s.2 request)

/-- JavaScript `caches.open(name)`: the store is created, empty, when there is
none of that name. -/
def cachesOpen (cs : CacheStorage) (name : String) : CacheStorage :=
  if cs.any (fun s => s.1 == name) then cs else cs ++ [(name, [])]

/-- JavaScript `caches.delete(name)` when it succeeds. -/
def cachesDelete (cs : CacheStorage) (name : String) : CacheStorage :=
  cs.filter (fun s => !(s.1 == name))

/-- JavaScript `caches.keys()`. -/
def cachesKeys (cs : CacheStorage) : List String := cs.map Prod.fst

/-- The store `name` after an accepted `cache.put(request, r)` on it, the others
untouched. -/
def cachesPut (cs : CacheStorage) (name : String) (request : Request)
    (r : Response) : CacheStorage :=
  cs.map (fun s => if s.1 == name then (s.1, cacheStore s.2 request r) else s)

/-- The entries of the store `name`, `none` when there is no such store. -/
def storeOf (cs : CacheStorage) (name : String) : Option Cache :=
  (cs.find? (fun s => s.1 == name)).map Prod.snd

/-! ## Constants of `sw.js` -/

/-- The name of the current generation's store (`sw.js`, line 4). -/
def CACHE_NAME : String := "saudi-music-db-v1"

/-- The expiry window in milliseconds, 24 hours (`sw.js`, line 5). -/
def CACHE_EXPIRY : Int := 24 * 60 * 60 * 1000

/-- The app shell (`sw.js`, lines 8-15). -/
def urlsToCache : List String :=
  [ "/",
    "/index.html",
    "/styles.css",
    "/app.js",
    "/GOASTFLOWER_LOGO.png",
    "https://fonts.googleapis.com/css2?family=Amiri:wght@400;700&family=Tajawal:wght@300;400;500;700&display=swap" ]

/-- The substring that selects the always-network lane (`sw.js`, line 57). -/
def SHEETS_API : String := "sheets.googleapis.com"

/-! ## The environment -/

/-- What the environment delivers to a handler.
* `net request` is the outcome of `fetch(request)`: `some r` when the promise
  resolves with `r`, `none` when it rejects (the network request fails).
* `now` is `new Date()` in milliseconds.
* `parseDate s` is the time value of `new Date(s)` in milliseconds, `none` when
  it is an invalid date (`NaN`); the empty string is an invalid date.
* `deleteFails name` tells whether `caches.delete(name)` rejects during
  activation. -/
structure Env where
  net : Request → Option Response
  now : Int
  parseDate : String → Option Int
  parseEmpty : parseDate "" = none
  deleteFails : String → Bool

/-- How a promise settled. -/
inductive Settled where
  | resolved
  | rejected
deriving DecidableEq, Repr

/-! ## The fetch handler (`sw.js`, lines 55-123) -/

/-- What `event.respondWith` receives once its promise settles: a response,
`undefined` (the page then sees a network error), or a rejection. -/
inductive Reply where
  | response (r : Response)
  | undefined
  | rejected
deriving DecidableEq, Repr

/-- The result of handling one fetch event: the reply, the requests sent to the
network, the requests looked up with `caches.match`, the `cache.put` calls
(store name, request, response), the exception of a rejection nobody handles if
there was one, and the stores afterwards. -/
structure FetchOutcome where
  reply : Reply
  fetched : List Request
  matched : List Request
  puts : List (String × Request × Response)
  unhandled : Option Exn
  stores : CacheStorage
deriving DecidableEq, Repr

/-- The two ways the fetch handler treats a request. -/
inductive Lane where
  | alwaysNetwork
  | cacheFirst
deriving DecidableEq, Repr

/-- The classification of a request (`sw.js`, line 57):
`event.request.url.includes('sheets.googleapis.com')`. -/
def lane (url : String) : Lane :=
  if includes url SHEETS_API then .alwaysNetwork else .cacheFirst

/-- The `.catch` of the always-network lane (`sw.js`, lines 72-75):
`caches.match(event.request)`, whose result is the reply. -/
def alwaysNetworkCatch (stores : CacheStorage) (request : Request) : FetchOutcome :=
  { reply := match cachesMatch stores request with
             | some r => .response r
             | none => .undefined
    fetched := [request]
    matched := [request]
    puts := []
    unhandled := none
    stores := stores }

/-- The always-network lane (`sw.js`, lines 58-77): the network response is
rebuilt with the `Cache-Control` header overridden; a rejection of the request,
or an exception thrown while rebuilding, runs the `.catch`. -/
def alwaysNetwork (env : Env) (stores : CacheStorage) (request : Request) :
    FetchOutcome :=
  match env.net request with
  | some response =>
    let headers := headersSet response.headers "Cache-Control" "public, max-age=180"
    match newResponse response.body response.status response.statusText headers with
    | .ok rebuilt =>
      { reply := .response rebuilt
        fetched := [request]
        matched := []
        puts := []
        unhandled := none
        stores := stores }
    | .error _ => alwaysNetworkCatch stores request
  | none => alwaysNetworkCatch stores request

/-- The expiry check of the cache-first lane (`sw.js`, lines 87-94): the entry
has a non-empty `date` header whose time is less than `CACHE_EXPIRY` before
`now`; an invalid date compares false. -/
def isFresh (env : Env) (response : Response) : Bool :=
  match headersGet response.headers "date" with
  | some dateHeader =>
    if dateHeader ≠ "" then
      match env.parseDate dateHeader with
      | some cacheDate => decide (env.now - cacheDate < CACHE_EXPIRY)
      | none => false
    else false
  | none => false

/-- The synthesized reply of the cache-first lane (`sw.js`, lines 116-119). -/
def offlineResponse : Except Exn Response :=
  newTextResponse "Offline - Please check your connection" 503 "Service Unavailable"

/-- The write of the cache-first lane (`sw.js`, lines 106-110):
`caches.open(CACHE_NAME).then(cache => { cache.put(event.request, clone); })`.
The store is opened (created when missing); when `cache.put` accepts the pair
the entry is stored, and when it rejects nothing is stored and nobody handles
the rejection. Gives the stores afterwards and the unhandled exception. -/
def storeResponse (stores : CacheStorage) (request : Request) (response : Response) :
    CacheStorage × Option Exn :=
  let opened := cachesOpen stores CACHE_NAME
  if putAccepts request response then
    (cachesPut opened CACHE_NAME request response, none)
  else (opened, some .typeError)

/-- The network step of the cache-first lane (`sw.js`, lines 98-120); `cached`
is what `caches.match` found. A response that is not (200, "basic") is returned
as it is; any other is returned and `cache.put` is also called with it on the
store `CACHE_NAME`. When the request fails the reply is `cached`, or the
synthesized response when `cached` is `undefined`. -/
def fetchFromNetwork (env : Env) (stores : CacheStorage) (request : Request)
    (cached : Option Response) : FetchOutcome :=
  match env.net request with
  | some response =>
    if response.status ≠ 200 ∨ response.type ≠ "basic" then
      { reply := .response response
        fetched := [request]
        matched := [request]
        puts := []
        unhandled := none
        stores := stores }
    else
      { reply := .response response
        fetched := [request]
        matched := [request]
        puts := [(CACHE_NAME, request, response)]
        unhandled := (storeResponse stores request response).2
        stores := (storeResponse stores request response).1 }
  | none =>
    { reply := match cached with
               | some response => .response response
               | none =>
                 match offlineResponse with
                 | .ok r => .response r
                 | .error _ => .rejected
      fetched := [request]
      matched := [request]
      puts := []
      unhandled := none
      stores := stores }

/-- The cache-first lane (`sw.js`, lines 81-122). -/
def cacheFirst (env : Env) (stores : CacheStorage) (request : Request) :
    FetchOutcome :=
  match cachesMatch stores request with
  | some response =>
    if isFresh env response then
      { reply := .response response
        fetched := []
        matched := [request]
        puts := []
        unhandled := none
        stores := stores }
    else fetchFromNetwork env stores request (some response)
  | none => fetchFromNetwork env stores request none

/-- The fetch handler (`sw.js`, lines 55-123). -/
def fetchHandler (env : Env) (stores : CacheStorage) (request : Request) :
    FetchOutcome :=
  match lane request.url with
  | .alwaysNetwork => alwaysNetwork env stores request
  | .cacheFirst => cacheFirst env stores request

/-! ## The install handler (`sw.js`, lines 18-33) -/

/-- The requests of `cache.addAll(urls)`: every URL is requested with
`new Request(url)`, and the batch fails (`none`) when a URL is not an `http` or
`https` URL, a request fails, a response is not ok (a status outside 200..299,
or 206) or a response has `Vary: *`. -/
def addAllResponses (env : Env) : List String → Option (List (String × Response))
  | [] => some []
  | url :: rest =>
    match env.net (getRequest url) with
    | some r =>
      if hasHttpScheme url = true ∧ 200 ≤ r.status ∧ r.status ≤ 299 ∧ r.status ≠ 206 ∧
          variesOnAll r = false then
        (addAllResponses env rest).map (fun rs => (url, r) :: rs)
      else none
    | none => none

/-- JavaScript `cache.addAll(urls)` on the store `name`: when the batch fails
the promise rejects (`none`) and nothing is stored, otherwise every response is
stored under the request of its URL. -/
def cachesAddAll (env : Env) (cs : CacheStorage) (name : String)
    (urls : List String) : Option CacheStorage :=
  (addAllResponses env urls).map
    (fun rs => rs.foldl (fun acc e => cachesPut acc name (getRequest e.1) e.2) cs)

/-- The result of the install event: how the promise given to
`event.waitUntil` settled, whether `self.skipWaiting()` was called, the console
lines, and the stores afterwards. -/
structure InstallOutcome where
  settled : Settled
  skipWaiting : Bool
  log : List String
  stores : CacheStorage
deriving DecidableEq, Repr

/-- The install handler (`sw.js`, lines 18-33):
`caches.open(CACHE_NAME).then(addAll).then(skipWaiting).catch(log)`. The
`.catch` handler returns normally, so the promise it yields resolves. -/
def installHandler (env : Env) (stores : CacheStorage) : InstallOutcome :=
  let opened := cachesOpen stores CACHE_NAME
  match cachesAddAll env opened CACHE_NAME urlsToCache with
  | some stored =>
    { settled := .resolved
      skipWaiting := true
      log := ["ServiceWorker: Caching app shell", "ServiceWorker: Cache complete"]
      stores := stored }
  | none =>
    { settled := .resolved
      skipWaiting := false
      log := ["ServiceWorker: Caching app shell", "ServiceWorker: Cache failed"]
      stores := opened }

/-! ## The activate handler (`sw.js`, lines 36-52) -/

/-- The state of the clean-up while `cacheNames.map` runs: the stores, the
console lines, and whether a `caches.delete` rejected. -/
structure Cleanup where
  stores : CacheStorage
  log : List String
  failed : Bool
deriving DecidableEq, Repr

/-- The callback of `cacheNames.map` (`sw.js`, lines 40-45), over the names in
order: for a name other than `CACHE_NAME` the deletion is logged and started; a
deletion that fails leaves its store in place and is remembered. Every deletion
is started before any of them settles. -/
def deleteOld (env : Env) : List String → Cleanup → Cleanup
  | [], acc => acc
  | cacheName :: rest, acc =>
    if cacheName ≠ CACHE_NAME then
      deleteOld env rest
        { stores := if env.deleteFails cacheName then acc.stores
                    else cachesDelete acc.stores cacheName
          log := acc.log ++ ["ServiceWorker: Deleting old cache " ++ cacheName]
          failed := acc.failed || env.deleteFails cacheName }
    else deleteOld env rest acc

/-- The result of the activate event: how the promise given to
`event.waitUntil` settled, whether `self.clients.claim()` was called, the
console lines, and the stores afterwards. -/
structure ActivateOutcome where
  settled : Settled
  claimed : Bool
  log : List String
  stores : CacheStorage
deriving DecidableEq, Repr

/-- The activate handler (`sw.js`, lines 36-52):
`caches.keys().then(names => Promise.all(names.map(...))).then(claim)`.
`Promise.all` rejects when one of the deletions rejects, and the `.then` that
claims the clients is then skipped. -/
def activateHandler (env : Env) (stores : CacheStorage) : ActivateOutcome :=
  let done := deleteOld env (cachesKeys stores)
    { stores := stores, log := [], failed := false }
  if done.failed then
    { settled := .rejected
      claimed := false
      log := done.log
      stores := done.stores }
  else
    { settled := .resolved
      claimed := true
      log := done.log ++ ["ServiceWorker: Activated"]
      stores := done.stores }

/-! ## The message handler (`sw.js`, lines 126-136) -/

/-- A message event. `data` is `none` when `event.data` is falsy, and
`some t` when it is truthy, `t` being `event.data.type` when that is a string
(`none` otherwise). `ports` names the reply channels of `event.ports`. -/
structure MessageEvent where
  data : Option (Option String)
  ports : List String
deriving DecidableEq, Repr

/-- The result of a message event: whether `self.skipWaiting()` was called, the
messages posted (port, text), the exception of an unhandled rejection if there
was one, and the stores afterwards. -/
structure MessageOutcome where
  skipWaiting : Bool
  posted : List (String × String)
  unhandled : Option Exn
  stores : CacheStorage
deriving DecidableEq, Repr

/-- The message handler (`sw.js`, lines 126-136). For `CLEAR_CACHE` the store
`CACHE_NAME` is deleted and then `event.ports[0].postMessage('Cache cleared')`
runs, which throws a `TypeError` inside the promise when `event.ports` is
empty. -/
def messageHandler (stores : CacheStorage) (event : MessageEvent) :
    MessageOutcome :=
  let skip : Bool := decide (event.data = some (some "SKIP_WAITING"))
  if event.data = some (some "CLEAR_CACHE") then
    match event.ports.head? with
    | some port =>
      { skipWaiting := skip
        posted := [(port, "Cache cleared")]
        unhandled := none
        stores := cachesDelete stores CACHE_NAME }
    | none =>
      { skipWaiting := skip
        posted := []
        unhandled := some .typeError
        stores := cachesDelete stores CACHE_NAME }
  else
    { skipWaiting := skip
      posted := []
      unhandled := none
      stores := stores }

/-! ## The directory (`data.js`, `github_data_js.js`) -/

/-- A JavaScript value as the search observes it. The search applies two
operations to a cell or a filter: the test of `value || ''` (is the value
truthy?) and `String(value)`. A value is modelled by the answers to both, which
covers the strings, numbers, booleans and dates that `getValues()` yields as
well as `null` and `undefined`. -/
structure JsValue where
  truthy : Bool
  text : String
deriving DecidableEq, Repr

namespace JsValue

/-- The value `undefined`, which is also what `row[index]` is past the end of
the row. -/
def undefined : JsValue := { truthy := false, text := "undefined" }

/-- The value `null`. -/
def null : JsValue := { truthy := false, text := "null" }

/-- A string: truthy unless empty, and its own text. -/
def string (s : String) : JsValue := { truthy := decide (s ≠ ""), text := s }

/-- A whole number: truthy unless 0, and its decimal text. -/
def number (n : Int) : JsValue := { truthy := decide (n ≠ 0), text := toString n }

/-- A boolean: `true` is truthy, and the text is "true" or "false". -/
def boolean (b : Bool) : JsValue := { truthy := b, text := if b then "true" else "false" }

end JsValue

/-- A row of the directory: its cells. -/
abbrev Row := List JsValue

/-- The white space of JavaScript (`WhiteSpace` and `LineTerminator`), which is
what `trim()` strips and what `\s` matches. -/
def isJsSpace (c : Char) : Bool :=
  [9, 10, 11, 12, 13, 32, 160, 5760, 8232, 8233, 8239, 8287, 12288, 65279].contains
      c.toNat ||
    (8192 ≤ c.toNat && c.toNat ≤ 8202)

/-- JavaScript `s.trim()`. -/
def jsTrim (s : String) : String :=
  String.mk ((s.data.dropWhile isJsSpace).reverse.dropWhile isJsSpace).reverse

/-- JavaScript `String(value || '')`: the text of a truthy value, the empty
string for a falsy one. -/
def textOf (value : JsValue) : String := if value.truthy then value.text else ""

/-- JavaScript `row[index]`: `undefined` past the end of the row. -/
def cellAt (row : Row) (index : Nat) : JsValue :=
  (row.get? index).getD JsValue.undefined

/-- The pieces of `s.split(/\s+/)`, over the characters still to read, the
characters of the current piece (last first), and whether the last character
read was white space. -/
def splitSpaces : List Char → List Char → Bool → List (List Char)
  | [], piece, _ => [piece.reverse]
  | c :: cs, piece, inSpace =>
    if isJsSpace c then
      if inSpace then splitSpaces cs piece true
      else piece.reverse :: splitSpaces cs [] true
    else splitSpaces cs (c :: piece) false

/-- JavaScript `s.split(/\s+/)`. -/
def jsSplitSpaces (s : String) : List String :=
  (splitSpaces s.data [] false).map String.mk

/-- The callback of `filters.every` (`data.js`, lines 64-81;
`github_data_js.js`, lines 57-73): a blank filter passes; otherwise every word
of the lower-cased filter must occur in the lower-cased cell `row[index]`.
`toLowerCase` is `String.prototype.toLowerCase`. -/
def filterPasses (toLowerCase : String → String) (row : Row)
    (filter : JsValue) (index : Nat) : Bool :=
  let trimmedFilter := jsTrim (textOf filter)
  if trimmedFilter = "" then true
  else
    let cellValue := toLowerCase (textOf (cellAt row index))
    let filterValue := toLowerCase trimmedFilter
    let searchWords := (jsSplitSpaces filterValue).filter (fun word => word.length > 0)
    searchWords.all (fun searchWord => includes cellValue searchWord)

/-- JavaScript `filters.every((filter, index) => ...)`, from `index` on. -/
def everyFilter (toLowerCase : String → String) (row : Row) :
    List JsValue → Nat → Bool
  | [], _ => true
  | filter :: rest, index =>
    filterPasses toLowerCase row filter index &&
      everyFilter toLowerCase row rest (index + 1)

/-- The test `filters.some(filter => String(filter || '').trim() !== '')`. -/
def someFilter (filters : List JsValue) : Bool :=
  filters.any (fun filter => decide (jsTrim (textOf filter) ≠ ""))

namespace AppsScript

/-- The function `searchArtists` of `data.js` (lines 47-90); `data` is what
`getSheetData('Saudi music community')` returns and `filters` is `none` when the
argument is absent. Nothing in the body throws, so the `catch` is not
reached. -/
def searchArtists (toLowerCase : String → String) (data : List Row)
    (filters : Option (List JsValue)) : List Row :=
  let hasFilters : Bool :=
    match filters with
    | some fs => decide (fs.length > 0) && someFilter fs
    | none => false
  if !hasFilters then data
  else
    match filters with
    | some fs => data.filter (fun row => everyFilter toLowerCase row fs 0)
    | none => data

end AppsScript

namespace Static

/-- The sample artists (`github_data_js.js`, lines 4-20). -/
def SAMPLE_ARTISTS : List Row :=
  List.map (List.map JsValue.string)
    [ ["أحمد الدوجان", "مطرب", "طرب أصيل", "https://instagram.com/ahmad_dojan", "الرياض", "تعاون مفتوح", "https://soundcloud.com/ahmad", "ahmad@example.com"],
      ["فاطمة الخالد", "ملحنة", "موسيقى معاصرة", "https://twitter.com/fatima_music", "جدة", "بحث عن مطربين", "https://youtube.com/fatima", "fatima.music@gmail.com"],
      ["محمد العتيبي", "عازف عود", "تراث سعودي", "https://instagram.com/oud_master", "الدمام", "ورش تدريب", "https://spotify.com/mohammed", "mohammed.oud@hotmail.com"],
      ["نورا السليم", "كاتبة أغاني", "بوب عربي", "https://tiktok.com/@nora_lyrics", "المدينة", "كتابة كلمات", "https://genius.com/nora", "nora.lyrics@outlook.com"],
      ["خالد الشمري", "منتج موسيقي", "هيب هوب عربي", "https://instagram.com/khalid_beats", "الرياض", "إنتاج ألبومات", "https://beatport.com/khalid", "khalid.producer@gmail.com"],
      ["آية المطيري", "مطربة", "R&B عربي", "https://instagram.com/aya_voice", "الخبر", "دويتو وتعاون", "https://soundcloud.com/aya", "aya.singer@gmail.com"],
      ["عبدالله الغامدي", "عازف جيتار", "روك عربي", "https://youtube.com/abdullah_guitar", "الطائف", "تكوين فرقة", "https://reverbnation.com/abdullah", "abdullah.guitar@yahoo.com"],
      ["ريم النعيمي", "مهندسة صوت", "جميع الأنواع", "https://linkedin.com/in/reem-audio", "جدة", "تسجيل وإنتاج", "https://portfolio.reem.com", "reem.audio@gmail.com"],
      ["سلطان الدوسري", "مؤلف موسيقي", "موسيقى تصويرية", "https://instagram.com/sultan_composer", "الرياض", "أفلام ومسلسلات", "https://imdb.com/sultan", "sultan.composer@gmail.com"],
      ["مريم الزهراني", "مطربة أوبرا", "كلاسيكي عربي", "https://facebook.com/mariam.opera", "مكة", "حفلات كلاسيكية", "https://operahouse.com/mariam", "mariam.opera@hotmail.com"],
      ["يوسف الحربي", "DJ", "إلكترونيك عربي", "https://instagram.com/dj_youssef", "الدمام", "حفلات ومهرجانات", "https://mixcloud.com/youssef", "dj.youssef@gmail.com"],
      ["هند الفايز", "معلمة موسيقى", "تعليمي", "https://youtube.com/hind_music_teacher", "بريدة", "دروس خصوصية", "https://teachable.com/hind", "hind.teacher@edu.sa"],
      ["راشد القحطاني", "مطرب شعبي", "تراث نجدي", "https://instagram.com/rashed_folklore", "الرياض", "مناسبات تراثية", "https://anghami.com/rashed", "rashed.heritage@gmail.com"],
      ["لينا السعد", "كمانجية", "موسيقى حجازية", "https://instagram.com/lina_violin", "جدة", "عروض كلاسيكية", "https://spotify.com/lina", "lina.violin@gmail.com"],
      ["عمر الشهري", "باص جيتار", "جاز عربي", "https://soundcloud.com/omar_bass", "أبها", "فرق جاز", "https://reverbnation.com/omar", "omar.bass@gmail.com"] ]

/-- The sample opportunities (`github_data_js.js`, lines 22-31). -/
def SAMPLE_OPPORTUNITIES : List Row :=
  List.map (List.map JsValue.string)
    [ ["مهرجان الرياض للموسيقى", "منظم فعاليات", "جميع الأنواع", "https://riyadh-music-fest.com", "الرياض", "بحث عن فنانين", "https://apply.riyadhfest.com", "info@riyadhfest.com"],
      ["استوديو النغم الذهبي", "مدير استوديو", "تسجيل وإنتاج", "https://instagram.com/golden_note_studio", "جدة", "خدمات تسجيل", "https://goldennote.studio", "booking@goldennote.studio"],
      ["أكاديمية الموسيقى السعودية", "مدير أكاديمي", "تعليم موسيقي", "https://saudimusicacademy.edu.sa", "الرياض", "مدرسين موسيقى", "https://careers.sma.edu.sa", "hr@saudimusicacademy.edu.sa"],
      ["شركة إنتاج الأحلام", "منتج تنفيذي", "إنتاج ألبومات", "https://dreamsproduction.sa", "الخبر", "مطربين جدد", "https://submit.dreams.sa", "talent@dreamsproduction.sa"],
      ["مهرجان جدة للجاز", "منسق موسيقي", "جاز وبلوز", "https://jeddahjazzfest.com", "جدة", "عازفين جاز", "https://apply.jjf.com", "artists@jeddahjazzfest.com"],
      ["قناة الموسيقى العربية", "مدير البرامج", "تلفزيوني", "https://arabicmusictv.com", "الدمام", "ضيوف برامج", "https://tv.arabic.com/guests", "programs@arabicmusictv.com"],
      ["مسرح الأوبرا السعودي", "مدير فني", "كلاسيكي وأوبرا", "https://saudiopera.org", "الرياض", "مطربين أوبرا", "https://auditions.opera.sa", "casting@saudiopera.org"],
      ["استوديو الإبداع الموسيقي", "مهندس صوت", "جميع الأنواع", "https://creativestudio.sa", "الطائف", "مشاريع تسجيل", "https://book.creative.sa", "studio@creativestudio.sa"] ]

/-- The function `getAllArtists` of `github_data_js.js` (lines 34-36). -/
def getAllArtists : List Row := SAMPLE_ARTISTS

/-- The function `getAllOpportunities` of `github_data_js.js` (lines 38-40). -/
def getAllOpportunities : List Row := SAMPLE_OPPORTUNITIES

/-- The function `searchArtists` of `github_data_js.js` (lines 42-75);
`filters` is `none` when the argument is absent. -/
def searchArtists (toLowerCase : String → String)
    (filters : Option (List JsValue)) : List Row :=
  match filters with
  | none => SAMPLE_ARTISTS
  | some fs =>
    if fs.length = 0 then SAMPLE_ARTISTS
    else
      let hasFilters := someFilter fs
      if !hasFilters then SAMPLE_ARTISTS
      else SAMPLE_ARTISTS.filter (fun row => everyFilter toLowerCase row fs 0)

end Static

namespace Static

/-- The object `dataCache` of `github_data_js.js` (lines 78-82); `none` is
`null`. -/
structure DataCache where
  artists : Option (List Row)
  opportunities : Option (List Row)
  lastUpdate : Option Int
deriving DecidableEq, Repr

/-- The value of `dataCache` when the script is loaded. -/
def dataCache : DataCache :=
  { artists := none, opportunities := none, lastUpdate := none }

/-- The two values of `type` that the callers of `getCachedData` pass:
`'artists'` and `'opportunities'`. -/
inductive DataType where
  | artists
  | opportunities
deriving DecidableEq, Repr

/-- JavaScript `dataCache[type]`. -/
def DataCache.get (cache : DataCache) : DataType → Option (List Row)
  | DataType.artists => cache.artists
  | DataType.opportunities => cache.opportunities

/-- The constant `fiveMinutes` of `getCachedData` (line 86). -/
def fiveMinutes : Int := 5 * 60 * 1000

/-- The function `getCachedData` of `github_data_js.js` (lines 84-105), called
when `Date.now()` is `now`, the timer it may start being run to completion: the
value delivered (returned directly, or the one the returned promise resolves
with; `none` is `null`) and `dataCache` afterwards. `lastUpdate` is truthy when
it is neither `null` nor 0. -/
def getCachedData (cache : DataCache) (now : Int) (type : DataType) :
    Option (List Row) × DataCache :=
  let recent : Bool :=
    match cache.lastUpdate with
    | some lastUpdate => decide (lastUpdate ≠ 0 ∧ now - lastUpdate < fiveMinutes)
    | none => false
  if recent then (cache.get type, cache)
  else
    match type with
    | DataType.artists =>
      (some getAllArtists,
        { cache with artists := some getAllArtists, lastUpdate := some now })
    | DataType.opportunities =>
      (some getAllOpportunities,
        { cache with opportunities := some getAllOpportunities, lastUpdate := some now })

/-- The values delivered by a sequence of calls of `getCachedData`, each given
with the time of the call and its `type`, on the cache left by the one before. -/
def deliveries : DataCache → List (Int × DataType) → List (Option (List Row))
  | _, [] => []
  | cache, (now, type) :: rest =>
    (getCachedData cache now type).1 :: deliveries (getCachedData cache now type).2 rest

end Static

/-! ## The worker as a machine -/

/-- An event the worker handles, with what the environment delivers while it is
handled: the install, the activation, a request, a message. -/
inductive WorkerEvent where
  | install (env : Env)
  | activate (env : Env)
  | fetch (env : Env) (request : Request)
  | message (event : MessageEvent)

/-- The stores after the worker has handled one event. -/
def handle (stores : CacheStorage) : WorkerEvent → CacheStorage
  | WorkerEvent.install env => (installHandler env stores).stores
  | WorkerEvent.activate env => (activateHandler env stores).stores
  | WorkerEvent.fetch env request => (fetchHandler env stores request).stores
  | WorkerEvent.message event => (messageHandler stores event).stores

/-- The stores after the worker has handled a sequence of events, in order. -/
def run (stores : CacheStorage) (events : List WorkerEvent) : CacheStorage :=
  events.foldl handle stores

/-! ## The words of the specification -/

/-- The part of a URL after its first `//`, the one that follows the scheme
(nothing when there is none). -/
def afterScheme : List Char → List Char
  | [] => []
  | c :: rest =>
    if startsWith (c :: rest) ['/', '/'] then rest.tail else afterScheme rest

/-- Modelled from the specification's words "the request's destination host":
the authority of the URL (what follows `//` up to the first `/`, `?` or `#`)
without its user information (what precedes the last `@`). -/
def urlHost (url : String) : String :=
  let authority := (afterScheme url.data).takeWhile
    (fun c => !(c == '/' || c == '?' || c == '#'))
  String.mk (authority.reverse.takeWhile (fun c => !(c == '@'))).reverse

/-- Modelled from the specification's words "fetched successfully": the request
for the resource resolves with a complete, successful response (a status in
200..299 other than 206, Partial Content). -/
def fetchedSuccessfully (env : Env) (url : String) : Bool :=
  match env.net (getRequest url) with
  | some r => decide (200 ≤ r.status ∧ r.status ≤ 299 ∧ r.status ≠ 206)
  | none => false

/-- Modelled from the specification's words: no store holds an entry whose
request URL contains `sheets.googleapis.com`. -/
def NoSheetsEntry (stores : CacheStorage) : Prop :=
  ∀ s ∈ stores, ∀ e ∈ s.2, ¬ SHEETS_API.data <:+: e.1.url.data

/-- The code points of the white space characters of ECMAScript: tab, line
feed, vertical tab, form feed, carriage return, space, no-break space, the
Unicode space separators, the line and paragraph separators and the byte order
mark. -/
def whiteSpaceCodes : List Nat :=
  [0x09, 0x0A, 0x0B, 0x0C, 0x0D, 0x20, 0xA0, 0x1680, 0x2000, 0x2001, 0x2002,
   0x2003, 0x2004, 0x2005, 0x2006, 0x2007, 0x2008, 0x2009, 0x200A, 0x2028,
   0x2029, 0x202F, 0x205F, 0x3000, 0xFEFF]

/-- Modelled from the specification's word "whitespace". -/
def isWhiteSpace (c : Char) : Bool := whiteSpaceCodes.contains c.toNat

/-- Modelled from the specification's word "blank": made of white space only. -/
def IsBlank (s : String) : Prop := ∀ c ∈ s.data, isWhiteSpace c = true

/-- Modelled from the specification's word "trimmed": without the white space
at its two ends. -/
def trimmed (s : String) : String :=
  String.mk ((s.data.dropWhile isWhiteSpace).rdropWhile isWhiteSpace)

/-- Modelled from the specification's words "each whitespace-separated word":
the pieces of the text between white space characters that are not empty. -/
def wordsOf (s : String) : List (List Char) :=
  (s.data.splitOnP isWhiteSpace).filter (fun word => !word.isEmpty)

/-- Modelled from the specification's words "the text of cell `i` of the row":
the text of the value the row holds at position `i`, the empty text when the
row has no such position. -/
def cellText (row : Row) (i : Nat) : String :=
  match row.get? i with
  | some value => value.text
  | none => ""

/-- Modelled from the specification's words: for every position `i` whose filter
is non-blank after trimming, each word of the trimmed, lower-cased filter is a
substring of the lower-cased text of cell `i` of the row. -/
def RowSatisfies (toLowerCase : String → String) (row : Row)
    (filters : List JsValue) : Prop :=
  ∀ i filter, filters.get? i = some filter → ¬ IsBlank filter.text →
    ∀ word ∈ wordsOf (toLowerCase (trimmed filter.text)),
      word <:+: (toLowerCase (cellText row i)).data

/-- Modelled from the specification's words "filters is absent, empty or all
blank". -/
def NoFilter (filters : Option (List JsValue)) : Prop :=
  ∀ fs, filters = some fs → ∀ filter ∈ fs, IsBlank filter.text

/-- A value whose text the code reads as it is: a value that is falsy only when
its text is empty, as every string is. The numbers 0 and `NaN`, `false`, `null`
and `undefined` are not of this kind. -/
def ReadAsIs (value : JsValue) : Prop := value.truthy = false → value.text = ""

/-! ## Sample inputs -/

/-- A stylesheet as the origin serves it, dated 1 January 2026, 00:00 GMT. -/
def sampleCss : Response :=
  { status := 200
    statusText := "OK"
    headers := [("content-type", "text/css"),
                ("date", "Thu, 01 Jan 2026 00:00:00 GMT")]
    body := some "body { direction: rtl; }"
    type := "basic" }

/-- A date parser that knows the one date of the samples. -/
def sampleParse (s : String) : Option Int :=
  if s = "Thu, 01 Jan 2026 00:00:00 GMT" then some 1767225600000 else none

/-- An environment with the network unreachable, one hour after the date of the
samples. -/
def offlineEnv : Env :=
  { net := fun _ => none
    now := 1767225600000 + 3600000
    parseDate := sampleParse
    parseEmpty := rfl
    deleteFails := fun _ => false }

/-- The request of a page for the stylesheet. -/
def stylesRequest : Request := getRequest "/styles.css"

/-- Stores holding the stylesheet in the current generation. -/
def sampleStores : CacheStorage :=
  [(CACHE_NAME, [(stylesRequest, sampleCss)])]

/-- The network still unreachable, 25 hours after the date of the samples. -/
def staleEnv : Env :=
  { offlineEnv with now := 1767225600000 + 25 * 3600000 }

/-- The URL of a request to the spreadsheet API. -/
def sheetsUrl : String :=
  "https://sheets.googleapis.com/v4/spreadsheets/1/values/Artists"

/-- A request to the spreadsheet API. -/
def sheetsRequest : Request := getRequest sheetsUrl

/-- The answer of the spreadsheet API to a request in `cors` mode. -/
def sheetsJson : Response :=
  { status := 200
    statusText := "OK"
    headers := [("content-type", "application/json"),
                ("cache-control", "private")]
    body := some "[]"
    type := "cors" }

/-- What `fetch` resolves with for a request in `no-cors` mode to another
origin: a response of type "opaque", whose status is 0, whose status text and
header list are empty and whose body is null. -/
def opaqueResponse : Response :=
  { status := 0
    statusText := ""
    headers := []
    body := none
    type := "opaque" }

/-- The network reachable, answering every request with `sheetsJson`. -/
def onlineEnv : Env :=
  { offlineEnv with net := fun _ => some sheetsJson }

/-- The network reachable, the request being in `no-cors` mode. -/
def noCorsEnv : Env :=
  { offlineEnv with net := fun _ => some opaqueResponse }

/-- Stores in which an earlier answer of the spreadsheet API is held. -/
def sheetsStores : CacheStorage :=
  [(CACHE_NAME, [(sheetsRequest, sheetsJson)])]

/-- The network reachable, the origin answering with the stylesheet. -/
def originEnv : Env :=
  { offlineEnv with net := fun _ => some sampleCss }

/-- Two stale generations, the current one, and a store whose name extends the
current name. -/
def threeStores : CacheStorage :=
  [("saudi-music-db-v0", [(stylesRequest, sampleCss)]),
   ("saudi-music-db-beta", []),
   (CACHE_NAME, [(stylesRequest, sampleCss)]),
   ("saudi-music-db-v1-data", [])]

/-- An environment in which deleting the store `saudi-music-db-v0` fails. -/
def stuckEnv : Env :=
  { offlineEnv with deleteFails := fun name => name == "saudi-music-db-v0" }

/-- The stylesheet as a server without a clock serves it: no `date` header. -/
def undatedCss : Response :=
  { status := 200
    statusText := "OK"
    headers := [("content-type", "text/css")]
    body := some "body { direction: rtl; }"
    type := "basic" }

/-- Stores holding the undated stylesheet in the current generation. -/
def undatedStores : CacheStorage :=
  [(CACHE_NAME, [(stylesRequest, undatedCss)])]

/-- Stores in which only a store of another name holds the stylesheet. -/
def legacyStores : CacheStorage :=
  [("saudi-music-db-v0", [(stylesRequest, sampleCss)]), (CACHE_NAME, [])]

/-- The network reachable, exactly `CACHE_EXPIRY` after the date of the samples. -/
def boundaryEnv : Env :=
  { originEnv with now := 1767225600000 + 86400000 }

/-- A `CLEAR_CACHE` message that carries no reply channel. -/
def clearWithoutPort : MessageEvent :=
  { data := some (some "CLEAR_CACHE"), ports := [] }

/-- A day in the life of the worker: it is installed and activated online, serves
the stylesheet and a request to the spreadsheet API, and is told to clear its
store, after which the stylesheet is requested again. -/
def sampleDay : List WorkerEvent :=
  [ WorkerEvent.install originEnv,
    WorkerEvent.activate originEnv,
    WorkerEvent.fetch originEnv stylesRequest,
    WorkerEvent.fetch onlineEnv sheetsRequest,
    WorkerEvent.message clearWithoutPort,
    WorkerEvent.fetch originEnv stylesRequest ]

/-- A response of status 204 that has a body, the empty one. -/
def noContent : Response :=
  { status := 204
    statusText := "No Content"
    headers := []
    body := some ""
    type := "cors" }

/-- The network reachable, every request being answered with `noContent`. -/
def noContentEnv : Env :=
  { offlineEnv with net := fun _ => some noContent }

/-- A form of the page posted to its own origin. -/
def postRequest : Request :=
  { url := "/contact", method := "POST", headers := [] }

/-- The answer of the origin to the posted form. -/
def thankYou : Response :=
  { status := 200
    statusText := "OK"
    headers := [("content-type", "text/html")]
    body := some "<p>Thank you</p>"
    type := "basic" }

/-- The network reachable, the origin answering with `thankYou`. -/
def postEnv : Env :=
  { offlineEnv with net := fun _ => some thankYou }

/-- The stylesheet served with `Vary: *`. -/
def variedCss : Response :=
  { status := 200
    statusText := "OK"
    headers := [("content-type", "text/css"), ("vary", "*")]
    body := some "body { direction: rtl; }"
    type := "basic" }

/-- The network reachable, the origin answering every request with
`variedCss`. -/
def variedEnv : Env :=
  { offlineEnv with net := fun _ => some variedCss }

/-- A script that a browser extension adds to the page. -/
def extensionRequest : Request := getRequest "chrome-extension://abcdefgh/content.js"

/-- A request for the home page with the text of the spreadsheet API in its
fragment. -/
def fragmentRequest : Request := getRequest "/#sheets.googleapis.com"

/-- A row of the sheet as `getValues()` yields it, eight cells wide: the second
cell holds the number 0 and the last six are empty. -/
def zeroRow : Row :=
  [JsValue.string "Ahmad", JsValue.number 0, JsValue.string "", JsValue.string "",
   JsValue.string "", JsValue.string "", JsValue.string "", JsValue.string ""]

/-- The same row with the text "0" in its second cell. -/
def zeroTextRow : Row :=
  [JsValue.string "Ahmad", JsValue.string "0", JsValue.string "", JsValue.string "",
   JsValue.string "", JsValue.string "", JsValue.string "", JsValue.string ""]

/-! ## Lemmas on strings and stores -/

theorem startsWith_iff (s p : List Char) : startsWith s p = true ↔ p <+: s := by
  induction p generalizing s with
  | nil => cases s <;> simp [startsWith]
  | cons a p ih =>
    cases s with
    | nil => simp [startsWith]
    | cons c cs =>
      simp only [startsWith, Bool.and_eq_true, beq_iff_eq, ih, List.cons_prefix_cons]
      constructor
      · rintro ⟨h1, h2⟩; exact ⟨h1.symm, h2⟩
      · rintro ⟨h1, h2⟩; exact ⟨h1.symm, h2⟩

theorem includesChars_iff (s t : List Char) :
    includesChars s t = true ↔ t <:+: s := by
  induction s with
  | nil =>
    simp only [includesChars, startsWith_iff]
    constructor
    · intro h; exact h.isInfix
    · intro h
      have ht := List.eq_nil_of_infix_nil h
      subst ht
      exact List.prefix_refl _
  | cons c cs ih =>
    simp only [includesChars, Bool.or_eq_true, startsWith_iff, ih, List.infix_cons_iff]

/-- The model of `String.prototype.includes` decides the substring relation. -/
theorem includes_iff (s t : String) : includes s t = true ↔ t.data <:+: s.data :=
  includesChars_iff _ _

theorem headersSetFirst_get_same (h : Headers) (n v : String)
    (hany : h.any (fun e => lower e.1 == lower n) = true) :
    ((headersSetFirst h n v).filter (fun e => lower e.1 == lower n)).map Prod.snd = [v] := by
  induction h with
  | nil => simp at hany
  | cons e rest ih =>
    cases he : (lower e.1 == lower n) with
    | true =>
      simp only [headersSetFirst, he, if_true, List.filter_cons, List.filter_filter]
      simp
    | false =>
      have hrest : rest.any (fun e => lower e.1 == lower n) = true := by
        simpa [List.any_cons, he] using hany
      have hset : headersSetFirst (e :: rest) n v = e :: headersSetFirst rest n v := by
        simp [headersSetFirst, he]
      rw [hset, List.filter_cons, he]
      simpa using ih hrest

theorem headersSetFirst_get_other (h : Headers) (n v m : String)
    (hne : lower m ≠ lower n) :
    ((headersSetFirst h n v).filter (fun e => lower e.1 == lower m)).map Prod.snd =
      (h.filter (fun e => lower e.1 == lower m)).map Prod.snd := by
  induction h with
  | nil => simp [headersSetFirst]
  | cons e rest ih =>
    cases he : (lower e.1 == lower n) with
    | true =>
      have hen : lower e.1 = lower n := by simpa using he
      have hem : (lower e.1 == lower m) = false := by
        rw [beq_eq_false_iff_ne]
        exact fun h' => hne (h'.symm.trans hen)
      have hfilter : (rest.filter (fun e' => !(lower e'.1 == lower n))).filter
          (fun e => lower e.1 == lower m) = rest.filter (fun e => lower e.1 == lower m) := by
        rw [List.filter_filter]
        apply List.filter_congr
        intro x _
        cases hx : (lower x.1 == lower m) with
        | false => simp
        | true =>
          have hxm : lower x.1 = lower m := by simpa using hx
          have : (lower x.1 == lower n) = false := by
            rw [beq_eq_false_iff_ne]
            exact fun h' => hne (hxm.symm.trans h')
          simp [this]
      simp only [headersSetFirst, he, if_true, List.filter_cons, hem, hfilter]
      simp
    | false =>
      have hset : headersSetFirst (e :: rest) n v = e :: headersSetFirst rest n v := by
        simp [headersSetFirst, he]
      rw [hset, List.filter_cons, List.filter_cons]
      cases hem : (lower e.1 == lower m) <;> simp [ih]

theorem intercalate_single (v : String) : ", ".intercalate [v] = v := by
  simp [String.intercalate, String.intercalate.go]

theorem headersGet_set_same (h : Headers) (n v : String) :
    headersGet (headersSet h n v) n = some v := by
  unfold headersGet headersSet
  by_cases hany : h.any (fun e => lower e.1 == lower n) = true
  · rw [if_pos hany, headersSetFirst_get_same h n v hany]
    simp only [intercalate_single]
  · have hnone : h.filter (fun e => lower e.1 == lower n) = [] := by
      rw [List.filter_eq_nil_iff]
      intro a ha hp
      exact hany (List.any_eq_true.mpr ⟨a, ha, hp⟩)
    rw [if_neg hany, List.filter_append, hnone]
    simp [intercalate_single]

theorem headersGet_set_other (h : Headers) (n v m : String)
    (hne : lower m ≠ lower n) :
    headersGet (headersSet h n v) m = headersGet h m := by
  unfold headersGet headersSet
  by_cases hany : h.any (fun e => lower e.1 == lower n) = true
  · rw [if_pos hany, headersSetFirst_get_other h n v m hne]
  · have hn : (lower n == lower m) = false := by
      rw [beq_eq_false_iff_ne]; exact fun h' => hne h'.symm
    rw [if_neg hany, List.filter_append]
    simp [List.filter_cons, hn]

/-- What follows the scheme ends the URL. -/
theorem afterScheme_suffix (l : List Char) : afterScheme l <:+ l := by
  induction l with
  | nil => exact List.suffix_refl _
  | cons c rest ih =>
    unfold afterScheme
    split
    · exact (List.tail_suffix rest).trans (List.suffix_cons c rest)
    · exact ih.trans (List.suffix_cons c rest)

/-- The host of a URL is a part of the URL. -/
theorem urlHost_within_url (url : String) : (urlHost url).data <:+: url.data := by
  unfold urlHost
  simp only
  have h1 := afterScheme_suffix url.data
  have h2 := List.takeWhile_prefix (fun c => !(c == '/' || c == '?' || c == '#'))
    (l := afterScheme url.data)
  have h3 := List.takeWhile_prefix (fun c => !(c == '@'))
    (l := ((afterScheme url.data).takeWhile
      (fun c => !(c == '/' || c == '?' || c == '#'))).reverse)
  have h4 := List.reverse_suffix.mpr h3
  rw [List.reverse_reverse] at h4
  exact (h4.isInfix.trans h2.isInfix).trans h1.isInfix


/-- Looking a store up by name, one store at a time. -/
theorem storeOf_nil (other : String) : storeOf [] other = none := rfl

theorem storeOf_cons (s : String × Cache) (rest : CacheStorage) (other : String) :
    storeOf (s :: rest) other = if s.1 = other then some s.2 else storeOf rest other := by
  by_cases h : s.1 = other <;> simp [storeOf, List.find?_cons, h]

theorem cachesPut_cons (s : String × Cache) (rest : CacheStorage)
    (name : String) (request : Request) (r : Response) :
    cachesPut (s :: rest) name request r =
      (if s.1 = name then (s.1, cacheStore s.2 request r) else s)
        :: cachesPut rest name request r := by
  simp [cachesPut]

/-- A put changes the store of that name and no other. -/
theorem storeOf_cachesPut (cs : CacheStorage) (name : String) (request : Request)
    (r : Response) (other : String) :
    storeOf (cachesPut cs name request r) other =
      if other = name then (storeOf cs name).map (fun c => cacheStore c request r)
      else storeOf cs other := by
  induction cs with
  | nil => simp [storeOf, cachesPut]
  | cons s rest ih =>
    rw [cachesPut_cons, storeOf_cons, storeOf_cons, storeOf_cons, ih]
    by_cases hs : s.1 = name
    · by_cases ho : other = name
      · simp [hs, ho]
      · have hno : ¬ name = other := fun h => ho h.symm
        simp [hs, ho, hno]
    · by_cases ho : other = name
      · subst ho
        simp [hs]
      · by_cases hso : s.1 = other <;> simp [hs, ho, hso]

theorem storeOf_append_single (cs : CacheStorage) (name other : String) (c : Cache) :
    storeOf (cs ++ [(name, c)]) other =
      match storeOf cs other with
      | some x => some x
      | none => if name = other then some c else none := by
  induction cs with
  | nil => simp [storeOf_cons, storeOf_nil]
  | cons s rest ih =>
    rw [List.cons_append, storeOf_cons, storeOf_cons, ih]
    by_cases hs : s.1 = other <;> simp [hs]

theorem storeOf_eq_none_iff (cs : CacheStorage) (name : String) :
    storeOf cs name = none ↔ cs.any (fun s => s.1 == name) = false := by
  induction cs with
  | nil => simp [storeOf_nil]
  | cons s rest ih =>
    rw [storeOf_cons, List.any_cons]
    by_cases hs : s.1 = name <;> simp [hs, ih]

/-- Opening a store creates it empty when it is missing and changes no other. -/
theorem storeOf_cachesOpen (cs : CacheStorage) (name other : String) :
    storeOf (cachesOpen cs name) other =
      if other = name then some ((storeOf cs name).getD []) else storeOf cs other := by
  unfold cachesOpen
  cases hany : cs.any (fun s => s.1 == name) with
  | true =>
    have hsome : storeOf cs name ≠ none := by
      rw [Ne, storeOf_eq_none_iff, hany]; simp
    by_cases ho : other = name
    · subst ho
      cases hst : storeOf cs other with
      | none => exact absurd hst hsome
      | some c => simp [hst]
    · simp [ho]
  | false =>
    have hnone : storeOf cs name = none := (storeOf_eq_none_iff cs name).mpr hany
    simp only [Bool.false_eq_true, if_false]
    rw [storeOf_append_single]
    by_cases ho : other = name
    · subst ho
      simp [hnone]
    · have hno : ¬ name = other := fun h => ho h.symm
      cases storeOf cs other <;> simp [ho, hno]

/-- A `GET` request matches the entry stored for it, when the response has no
`Vary: *`. -/
theorem requestMatches_self (request : Request) (r : Response)
    (hget : request.method = "GET") (hvary : variesOnAll r = false) :
    requestMatches request request r = true := by
  unfold requestMatches
  simp only [hget, beq_self_eq_true, Bool.true_and, List.all_eq_true, Bool.and_eq_true,
    Bool.not_eq_true', and_true]
  intro field hfield
  unfold variesOnAll at hvary
  rw [List.any_eq_false] at hvary
  simpa using hvary field hfield

/-- What `cache.put` accepts matches the entry stored for it. -/
theorem requestMatches_of_putAccepts (request : Request) (r : Response)
    (h : putAccepts request r = true) : requestMatches request request r = true := by
  unfold putAccepts at h
  simp only [Bool.and_eq_true, beq_iff_eq, Bool.not_eq_true'] at h
  exact requestMatches_self request r h.1.1.1 h.2

/-- Requests that match the same entry have the same URL, fragments excluded. -/
theorem requestMatches_url (query cached : Request) (r : Response)
    (h : requestMatches query cached r = true) :
    stripFragment query.url = stripFragment cached.url := by
  unfold requestMatches at h
  simp only [Bool.and_eq_true, beq_iff_eq] at h
  exact h.1.2

/-- Only a `GET` request matches an entry. -/
theorem requestMatches_method (query cached : Request) (r : Response)
    (h : requestMatches query cached r = true) : query.method = "GET" := by
  unfold requestMatches at h
  simp only [Bool.and_eq_true, beq_iff_eq] at h
  exact h.1.1

/-- After a put the store holds one entry the request matches, the new one. -/
theorem cacheStore_entries (c : Cache) (request : Request) (r : Response)
    (hself : requestMatches request request r = true) :
    (cacheStore c request r).filter (fun e => requestMatches request e.1 e.2)
      = [(request, r)] := by
  unfold cacheStore
  rw [List.filter_append, List.filter_filter]
  simp [hself]

/-- A put leaves the entries the request does not match as they were. -/
theorem cacheStore_others (c : Cache) (request : Request) (r : Response)
    (hself : requestMatches request request r = true) :
    (cacheStore c request r).filter (fun e => !(requestMatches request e.1 e.2))
      = c.filter (fun e => !(requestMatches request e.1 e.2)) := by
  unfold cacheStore
  rw [List.filter_append, List.filter_filter]
  simp [hself]

/-- After a put the store answers the request with the response put. -/
theorem cacheMatch_cacheStore (c : Cache) (request : Request) (r : Response)
    (hself : requestMatches request request r = true) :
    cacheMatch (cacheStore c request r) request = some r := by
  unfold cacheMatch cacheStore
  rw [List.find?_append]
  have : (c.filter (fun e => !(requestMatches request e.1 e.2))).find?
      (fun e => requestMatches request e.1 e.2) = none := by
    rw [List.find?_eq_none]
    intro x hx
    have := (List.mem_filter.mp hx).2
    simpa using this
  simp [this, hself]

/-- A deletion removes the store of that name and changes no other. -/
theorem storeOf_cachesDelete (cs : CacheStorage) (name other : String) :
    storeOf (cachesDelete cs name) other =
      if other = name then none else storeOf cs other := by
  induction cs with
  | nil => simp [cachesDelete, storeOf_nil]
  | cons s rest ih =>
    unfold cachesDelete at ih ⊢
    rw [List.filter_cons]
    by_cases hs : s.1 = name
    · simp only [hs, beq_self_eq_true, Bool.not_true, Bool.false_eq_true, if_false, ih,
        storeOf_cons]
      by_cases ho : other = name
      · simp [ho]
      · have : ¬ name = other := fun h => ho h.symm
        simp [ho, this]
    · have hb : (!(s.1 == name)) = true := by simpa using hs
      rw [if_pos hb, storeOf_cons, storeOf_cons, ih]
      by_cases hso : s.1 = other
      · have : ¬ other = name := fun h => hs (hso.trans h)
        simp [hso, this]
      · simp [hso]

/-- Keeping the stores of one name keeps the store of that name. -/
theorem storeOf_filter_name (cs : CacheStorage) (name : String) :
    storeOf (cs.filter (fun s => s.1 == name)) name = storeOf cs name := by
  induction cs with
  | nil => rfl
  | cons s rest ih =>
    rw [List.filter_cons]
    by_cases hs : s.1 = name
    · simp [hs, storeOf_cons]
    · have hb : (s.1 == name) = false := by simpa using hs
      simp [hb, storeOf_cons, hs, ih]


/-- A resource of the batch that cannot be fetched, because the request fails or
the response has a status outside 200..299, fails the batch. -/
theorem addAllResponses_of_failure (env : Env) (urls : List String)
    (hfail : ∃ url ∈ urls, env.net (getRequest url) = none ∨
      ∃ r, env.net (getRequest url) = some r ∧ (r.status < 200 ∨ 299 < r.status)) :
    addAllResponses env urls = none := by
  induction urls with
  | nil => obtain ⟨u, hu, _⟩ := hfail; simp at hu
  | cons url rest ih =>
    obtain ⟨u, hu, hnet⟩ := hfail
    unfold addAllResponses
    cases hn : env.net (getRequest url) with
    | none => rfl
    | some r =>
      by_cases hok : hasHttpScheme url = true ∧ 200 ≤ r.status ∧ r.status ≤ 299 ∧
          r.status ≠ 206 ∧ variesOnAll r = false
      · have hrest : ∃ url ∈ rest, env.net (getRequest url) = none ∨
            ∃ r, env.net (getRequest url) = some r ∧ (r.status < 200 ∨ 299 < r.status) := by
          rcases List.mem_cons.mp hu with h | h
          · subst h
            rcases hnet with h0 | ⟨r', hr', hbad⟩
            · rw [hn] at h0; exact Option.noConfusion h0
            · rw [hn] at hr'
              cases hr'
              omega
          · exact ⟨u, h, hnet⟩
        simp only [if_pos hok, ih hrest, Option.map_none']
      · simp only [if_neg hok]

/-- The stores the clean-up leaves: the current one, those whose deletion
failed, and those it was not asked to delete. -/
theorem deleteOld_stores (env : Env) (names : List String) (acc : Cleanup) :
    (deleteOld env names acc).stores =
      acc.stores.filter
        (fun s => s.1 == CACHE_NAME || env.deleteFails s.1 || !(names.contains s.1)) := by
  induction names generalizing acc with
  | nil => simp [deleteOld]
  | cons name rest ih =>
    unfold deleteOld
    by_cases hname : name = CACHE_NAME
    · rw [if_neg (not_not.mpr hname), ih]
      apply List.filter_congr
      intro s _
      by_cases hs : s.1 = CACHE_NAME
      · simp [hs]
      · have : ¬ s.1 = name := fun h => hs (h.trans hname)
        simp [hs, this]
    · rw [if_pos hname, ih]
      cases hf : env.deleteFails name with
      | true =>
        simp only [if_true]
        apply List.filter_congr
        intro s _
        by_cases hs : s.1 = name
        · simp [hs, hf]
        · simp [hs]
      | false =>
        simp only [Bool.false_eq_true, if_false, cachesDelete, List.filter_filter]
        apply List.filter_congr
        intro s _
        by_cases hs : s.1 = name
        · simp [hs, hf, hname]
        · simp [hs]

/-- The clean-up fails exactly when the deletion of a stale store fails. -/
theorem deleteOld_failed (env : Env) (names : List String) (acc : Cleanup) :
    (deleteOld env names acc).failed =
      (acc.failed || names.any (fun n => n != CACHE_NAME && env.deleteFails n)) := by
  induction names generalizing acc with
  | nil => simp [deleteOld]
  | cons name rest ih =>
    unfold deleteOld
    by_cases hname : name = CACHE_NAME
    · rw [if_neg (not_not.mpr hname), ih]
      simp [hname]
    · rw [if_pos hname, ih]
      have hne : (name != CACHE_NAME) = true := by simpa using hname
      simp [hne, Bool.or_assoc]

/-- The stores after the clean-up of activation. -/
theorem activate_stores (env : Env) (stores : CacheStorage) :
    (deleteOld env (cachesKeys stores) { stores := stores, log := [], failed := false }).stores
      = stores.filter (fun s => s.1 == CACHE_NAME || env.deleteFails s.1) := by
  rw [deleteOld_stores]
  apply List.filter_congr
  intro s hs
  have hmem : s.1 ∈ cachesKeys stores := List.mem_map_of_mem Prod.fst hs
  simp [hmem]

/-- An entry with a parsable, recent `date` header passes the expiry check. -/
theorem isFresh_of_date (env : Env) (r : Response) (s : String) (d : Int)
    (hdate : headersGet r.headers "date" = some s)
    (hparse : env.parseDate s = some d)
    (hage : env.now - d < CACHE_EXPIRY) : isFresh env r = true := by
  have hs : s ≠ "" := by
    intro h
    rw [h, env.parseEmpty] at hparse
    exact Option.noConfusion hparse
  simp [isFresh, hdate, hs, hparse, hage]

/-! ## The fetch handler: the cache-first lane -/

/-- C1: for a request of the cache-first lane, when `caches.match` finds an
entry whose `date` header parses to a time `d` with `now - d < CACHE_EXPIRY`,
the handler replies with exactly that entry, issues no network request, puts
nothing and leaves every store unchanged. -/
theorem C1_fresh_entry_is_served (env : Env) (stores : CacheStorage)
    (request : Request) (r : Response) (s : String) (d : Int)
    (hlane : lane request.url = Lane.cacheFirst)
    (hmatch : cachesMatch stores request = some r)
    (hdate : headersGet r.headers "date" = some s)
    (hparse : env.parseDate s = some d)
    (hage : env.now - d < CACHE_EXPIRY) :
    (fetchHandler env stores request).reply = Reply.response r ∧
    (fetchHandler env stores request).fetched = [] ∧
    (fetchHandler env stores request).puts = [] ∧
    (fetchHandler env stores request).stores = stores := by
  have hfresh := isFresh_of_date env r s d hdate hparse hage
  simp [fetchHandler, hlane, cacheFirst, hmatch, hfresh]

/-- C1 at work: the stylesheet stored an hour ago is served from the store. -/
theorem C1_fresh_entry_is_served_witness :
    (fetchHandler offlineEnv sampleStores stylesRequest).reply
      = Reply.response sampleCss ∧
    (fetchHandler offlineEnv sampleStores stylesRequest).fetched = [] ∧
    (fetchHandler offlineEnv sampleStores stylesRequest).puts = [] ∧
    (fetchHandler offlineEnv sampleStores stylesRequest).stores = sampleStores :=
  C1_fresh_entry_is_served offlineEnv sampleStores stylesRequest sampleCss
    "Thu, 01 Jan 2026 00:00:00 GMT" 1767225600000
    (by decide) (by decide) (by decide) (by decide) (by decide)

/-- The synthesized reply is built without an exception. -/
theorem offlineResponse_eq :
    offlineResponse = Except.ok
      { status := 503
        statusText := "Service Unavailable"
        headers := [("content-type", "text/plain;charset=UTF-8")]
        body := some "Offline - Please check your connection"
        type := "default" } := rfl

/-- C2: in the cache-first lane, when the network request fails the handler
does not propagate the error: its reply is the stored entry for the key when
there is one, however old, and otherwise a synthesized response of status 503
and status text "Service Unavailable". -/
theorem C2_network_failure_is_absorbed (env : Env) (stores : CacheStorage)
    (request : Request)
    (hlane : lane request.url = Lane.cacheFirst)
    (hfail : env.net request = none) :
    (fetchHandler env stores request).reply ≠ Reply.rejected ∧
    (∀ r, cachesMatch stores request = some r →
      (fetchHandler env stores request).reply = Reply.response r) ∧
    (cachesMatch stores request = none →
      ∃ r, (fetchHandler env stores request).reply = Reply.response r ∧
        r.status = 503 ∧ r.statusText = "Service Unavailable") := by
  cases hm : cachesMatch stores request with
  | none =>
    simp [fetchHandler, hlane, cacheFirst, hm, fetchFromNetwork, hfail,
      offlineResponse_eq]
  | some c =>
    cases hf : isFresh env c <;>
      simp [fetchHandler, hlane, cacheFirst, hm, hf, fetchFromNetwork, hfail]

/-- C2 at work: offline, 25 hours after the stylesheet was stored, the reply is
the stale stylesheet and not a rejection. -/
theorem C2_network_failure_is_absorbed_witness :
    (fetchHandler staleEnv sampleStores stylesRequest).reply ≠ Reply.rejected ∧
    (∀ r, cachesMatch sampleStores stylesRequest = some r →
      (fetchHandler staleEnv sampleStores stylesRequest).reply
        = Reply.response r) ∧
    (cachesMatch sampleStores stylesRequest = none →
      ∃ r, (fetchHandler staleEnv sampleStores stylesRequest).reply
          = Reply.response r ∧
        r.status = 503 ∧ r.statusText = "Service Unavailable") :=
  C2_network_failure_is_absorbed staleEnv sampleStores stylesRequest
    (by decide) rfl

/-! ## The fetch handler: the always-network lane -/

/-- The `Response` constructor succeeds on a status in 200..599, a status text
that is a reason phrase, and no body given with a null body status. -/
theorem newResponse_ok (body : Option String) (status : Nat) (statusText : String)
    (headers : Headers) (hlo : 200 ≤ status) (hhi : status ≤ 599)
    (htext : isReasonPhrase statusText = true)
    (hbody : body = none ∨ isNullBodyStatus status = false) :
    newResponse body status statusText headers =
      Except.ok { status := status, statusText := statusText, headers := headers,
                  body := body, type := "default" } := by
  unfold newResponse
  have h1 : ¬ ¬ (200 ≤ status ∧ status ≤ 599) := not_not.mpr ⟨hlo, hhi⟩
  have h2 : ¬ (isReasonPhrase statusText = false) := by simp [htext]
  have h3 : ¬ (body.isSome = true ∧ isNullBodyStatus status = true) := by
    rintro ⟨hb, hn⟩
    rcases hbody with h | h
    · rw [h] at hb; simp at hb
    · rw [h] at hn; simp at hn
  rw [if_neg h1, if_neg h2, if_neg h3]

/-- The `Response` constructor throws for every other input. -/
theorem newResponse_error (body : Option String) (status : Nat) (statusText : String)
    (headers : Headers)
    (h : ¬ (200 ≤ status ∧ status ≤ 599 ∧ isReasonPhrase statusText = true ∧
      (body = none ∨ isNullBodyStatus status = false))) :
    ∃ e, newResponse body status statusText headers = Except.error e := by
  unfold newResponse
  by_cases h1 : 200 ≤ status ∧ status ≤ 599
  · rw [if_neg (not_not.mpr h1)]
    by_cases h2 : isReasonPhrase statusText = false
    · rw [if_pos h2]; exact ⟨_, rfl⟩
    · rw [if_neg h2]
      by_cases h3 : body.isSome = true ∧ isNullBodyStatus status = true
      · rw [if_pos h3]; exact ⟨_, rfl⟩
      · exfalso
        apply h
        refine ⟨h1.1, h1.2, by simpa using h2, ?_⟩
        cases body with
        | none => exact Or.inl rfl
        | some b =>
          right
          cases hn : isNullBodyStatus status with
          | false => rfl
          | true => exact absurd ⟨rfl, hn⟩ h3
  · rw [if_pos h1]; exact ⟨_, rfl⟩

/-- In the always-network lane a network response that the `Response`
constructor refuses runs the `.catch`, as a failed request does. -/
theorem alwaysNetwork_refused (env : Env) (stores : CacheStorage)
    (request : Request) (r : Response) (hnet : env.net request = some r)
    (h : ¬ (200 ≤ r.status ∧ r.status ≤ 599 ∧ isReasonPhrase r.statusText = true ∧
      (r.body = none ∨ isNullBodyStatus r.status = false))) :
    alwaysNetwork env stores request = alwaysNetworkCatch stores request := by
  obtain ⟨e, he⟩ := newResponse_error r.body r.status r.statusText
    (headersSet r.headers "Cache-Control" "public, max-age=180") h
  simp [alwaysNetwork, hnet, he]

/-- In the always-network lane a network response that the `Response`
constructor accepts is rebuilt with the `Cache-Control` header overridden, and
the stores are neither read nor written. -/
theorem alwaysNetwork_rebuilds (env : Env) (stores : CacheStorage)
    (request : Request) (r : Response) (hnet : env.net request = some r)
    (hlo : 200 ≤ r.status) (hhi : r.status ≤ 599)
    (htext : isReasonPhrase r.statusText = true)
    (hbody : r.body = none ∨ isNullBodyStatus r.status = false) :
    alwaysNetwork env stores request =
      { reply := Reply.response
          { status := r.status
            statusText := r.statusText
            headers := headersSet r.headers "Cache-Control" "public, max-age=180"
            body := r.body
            type := "default" }
        fetched := [request]
        matched := []
        puts := []
        unhandled := none
        stores := stores } := by
  simp [alwaysNetwork, hnet, newResponse_ok _ _ _ _ hlo hhi htext hbody]

/-- The rebuilt response of the always-network lane carries the status, status
text and body of the network response, `Cache-Control: public, max-age=180`,
and every other header of the network response. -/
theorem alwaysNetwork_reply_mirrors (env : Env) (stores : CacheStorage)
    (request : Request) (r : Response) (hlane : lane request.url = Lane.alwaysNetwork)
    (hnet : env.net request = some r) (hlo : 200 ≤ r.status) (hhi : r.status ≤ 599)
    (htext : isReasonPhrase r.statusText = true)
    (hbody : r.body = none ∨ isNullBodyStatus r.status = false) :
    ∃ out, (fetchHandler env stores request).reply = Reply.response out ∧
      out.status = r.status ∧ out.statusText = r.statusText ∧
      out.body = r.body ∧
      headersGet out.headers "Cache-Control" = some "public, max-age=180" ∧
      (∀ name, lower name ≠ lower "Cache-Control" →
        headersGet out.headers name = headersGet r.headers name) ∧
      (fetchHandler env stores request).matched = [] ∧
      (fetchHandler env stores request).puts = [] ∧
      (fetchHandler env stores request).stores = stores := by
  refine ⟨{ status := r.status, statusText := r.statusText,
            headers := headersSet r.headers "Cache-Control" "public, max-age=180",
            body := r.body, type := "default" },
    ?_, rfl, rfl, rfl, headersGet_set_same _ _ _,
    fun name hne => headersGet_set_other _ _ _ _ hne, ?_, ?_, ?_⟩ <;>
    simp [fetchHandler, hlane,
      alwaysNetwork_rebuilds env stores request r hnet hlo hhi htext hbody]

/-- C3, at the input where the code departs from it: a request to the
spreadsheet API in `no-cors` mode, which the network answers with a response of
type "opaque" and status 0. Rebuilding that response throws, the `.catch` of
the lane runs, the store is read, and the reply is `undefined` (or the stored
entry when there is one) in place of a response with the status, status text,
body and headers of the network response. -/
theorem C3_opaque_response_is_not_returned :
    lane sheetsRequest.url = Lane.alwaysNetwork ∧
    noCorsEnv.net sheetsRequest = some opaqueResponse ∧
    newResponse opaqueResponse.body opaqueResponse.status opaqueResponse.statusText
      (headersSet opaqueResponse.headers "Cache-Control" "public, max-age=180")
      = Except.error Exn.rangeError ∧
    (fetchHandler noCorsEnv [] sheetsRequest).reply = Reply.undefined ∧
    (fetchHandler noCorsEnv [] sheetsRequest).matched = [sheetsRequest] ∧
    (fetchHandler noCorsEnv sheetsStores sheetsRequest).reply
      = Reply.response sheetsJson :=
  ⟨by decide, rfl, rfl, by decide, by decide, by decide⟩

/-- The same defect on a response of status 204 that has a body: the `Response`
constructor refuses a body with a null body status, and the `.catch` of the
lane answers from the store. -/
theorem alwaysNetwork_no_content_is_not_returned :
    noContentEnv.net sheetsRequest = some noContent ∧
    newResponse noContent.body noContent.status noContent.statusText
      (headersSet noContent.headers "Cache-Control" "public, max-age=180")
      = Except.error Exn.typeError ∧
    (fetchHandler noContentEnv [] sheetsRequest).reply = Reply.undefined ∧
    (fetchHandler noContentEnv [] sheetsRequest).matched = [sheetsRequest] :=
  ⟨rfl, rfl, by decide, by decide⟩

/-- C4 as stated fails: with the network request failing, the same request
gets no response from empty stores and the stored entry from stores that hold
one, so the result depends on the store. -/
theorem C4_failure_reads_the_store :
    lane sheetsRequest.url = Lane.alwaysNetwork ∧
    offlineEnv.net sheetsRequest = none ∧
    (fetchHandler offlineEnv [] sheetsRequest).reply = Reply.undefined ∧
    (fetchHandler offlineEnv sheetsStores sheetsRequest).reply
      = Reply.response sheetsJson ∧
    (fetchHandler offlineEnv [] sheetsRequest).reply
      ≠ (fetchHandler offlineEnv sheetsStores sheetsRequest).reply := by
  decide

/-- C4, amended: for a request of the always-network lane, when the network
call succeeds with a response that `new Response` accepts (a status in
200..599, a status text that is a reason phrase, and no body when the status is
a null body status such as 204, 205 or 304) the handler does not read the store
(no `caches.match` call, and the same reply for any two store states); when the
network call fails, or succeeds with a response that `new Response` refuses,
the handler reads the store and its reply is what `caches.match` finds,
`undefined` when it finds nothing. -/
theorem C4_store_is_read_only_on_failure (env : Env) (request : Request)
    (stores₁ stores₂ : CacheStorage) (hlane : lane request.url = Lane.alwaysNetwork) :
    (∀ r, env.net request = some r → 200 ≤ r.status → r.status ≤ 599 →
      isReasonPhrase r.statusText = true →
      (r.body = none ∨ isNullBodyStatus r.status = false) →
      (fetchHandler env stores₁ request).reply
        = (fetchHandler env stores₂ request).reply ∧
      (fetchHandler env stores₁ request).fetched
        = (fetchHandler env stores₂ request).fetched ∧
      (fetchHandler env stores₁ request).puts
        = (fetchHandler env stores₂ request).puts ∧
      (fetchHandler env stores₁ request).matched = []) ∧
    (env.net request = none →
      (fetchHandler env stores₁ request).matched = [request] ∧
      (fetchHandler env stores₁ request).reply =
        match cachesMatch stores₁ request with
        | some c => Reply.response c
        | none => Reply.undefined) ∧
    (∀ r, env.net request = some r →
      ¬ (200 ≤ r.status ∧ r.status ≤ 599 ∧ isReasonPhrase r.statusText = true ∧
        (r.body = none ∨ isNullBodyStatus r.status = false)) →
      (fetchHandler env stores₁ request).matched = [request] ∧
      (fetchHandler env stores₁ request).reply =
        match cachesMatch stores₁ request with
        | some c => Reply.response c
        | none => Reply.undefined) := by
  refine ⟨?_, ?_, ?_⟩
  · intro r hnet hlo hhi htext hbody
    simp [fetchHandler, hlane,
      alwaysNetwork_rebuilds env _ request r hnet hlo hhi htext hbody]
  · intro hnet
    simp [fetchHandler, hlane, alwaysNetwork, hnet, alwaysNetworkCatch]
  · intro r hnet hbad
    simp [fetchHandler, hlane, alwaysNetwork_refused env _ request r hnet hbad,
      alwaysNetworkCatch]

/-- C4, amended, at work: online, the request to the spreadsheet API gets the
same reply whether or not the stores hold an entry for it, without a look-up. -/
theorem C4_store_is_read_only_on_failure_witness :
    (fetchHandler onlineEnv [] sheetsRequest).reply
      = (fetchHandler onlineEnv sheetsStores sheetsRequest).reply ∧
    (fetchHandler onlineEnv [] sheetsRequest).fetched
      = (fetchHandler onlineEnv sheetsStores sheetsRequest).fetched ∧
    (fetchHandler onlineEnv [] sheetsRequest).puts
      = (fetchHandler onlineEnv sheetsStores sheetsRequest).puts ∧
    (fetchHandler onlineEnv [] sheetsRequest).matched = [] :=
  (C4_store_is_read_only_on_failure onlineEnv sheetsRequest [] sheetsStores
    (by decide)).1 sheetsJson rfl (by decide) (by decide) (by decide)
    (Or.inr (by decide))

/-! ## The fetch handler: the classification of requests -/

/-- C5 as stated fails: a request to the host `example.com` whose query string
holds the text `sheets.googleapis.com` is routed to the always-network lane
(offline, its reply is `undefined`, where the cache-first lane synthesizes a
response of status 503). -/
theorem C5_query_string_selects_always_network :
    includes (urlHost "https://example.com/search?ref=sheets.googleapis.com")
      SHEETS_API = false ∧
    lane "https://example.com/search?ref=sheets.googleapis.com"
      = Lane.alwaysNetwork ∧
    (fetchHandler offlineEnv sampleStores
      (getRequest "https://example.com/search?ref=sheets.googleapis.com")).reply
      = Reply.undefined := by
  decide

/-- C5, amended: the handler routes a request to the always-network lane if and
only if the URL of the request, as a whole string, contains
`sheets.googleapis.com`, which is the case whenever its host contains it; a
request whose URL does not contain that string is handled by the cache-first
lane. -/
theorem C5_lane_by_url_substring (request : Request) :
    (lane request.url = Lane.alwaysNetwork ↔ SHEETS_API.data <:+: request.url.data) ∧
    (lane request.url = Lane.cacheFirst ↔ ¬ SHEETS_API.data <:+: request.url.data) ∧
    (SHEETS_API.data <:+: (urlHost request.url).data →
      lane request.url = Lane.alwaysNetwork) ∧
    (∀ env stores, SHEETS_API.data <:+: request.url.data →
      fetchHandler env stores request = alwaysNetwork env stores request) ∧
    (∀ env stores, ¬ SHEETS_API.data <:+: request.url.data →
      fetchHandler env stores request = cacheFirst env stores request) := by
  have key : lane request.url = Lane.alwaysNetwork ↔
      SHEETS_API.data <:+: request.url.data := by
    rw [← includes_iff]
    unfold lane
    cases includes request.url SHEETS_API <;> simp
  have key2 : lane request.url = Lane.cacheFirst ↔
      ¬ SHEETS_API.data <:+: request.url.data := by
    rw [← includes_iff]
    unfold lane
    cases includes request.url SHEETS_API <;> simp
  refine ⟨key, key2, fun h => key.mpr (h.trans (urlHost_within_url request.url)), ?_, ?_⟩
  · intro env stores h
    simp [fetchHandler, key.mpr h]
  · intro env stores h
    simp [fetchHandler, key2.mpr h]

/-! ## The fetch handler: the network step of the cache-first lane -/

/-- When the cache-first lane issues a network request, it is running its
network step. -/
theorem cacheFirst_of_fetched (env : Env) (stores : CacheStorage) (request : Request)
    (hissued : (cacheFirst env stores request).fetched = [request]) :
    cacheFirst env stores request
      = fetchFromNetwork env stores request (cachesMatch stores request) := by
  unfold cacheFirst at hissued ⊢
  cases hm : cachesMatch stores request with
  | none => rfl
  | some c =>
    cases hf : isFresh env c with
    | false => simp [hf]
    | true => simp [hm, hf] at hissued

/-- The network step on a response of status 200 and type "basic": the response
is the reply and `cache.put` is called with it. -/
theorem fetchFromNetwork_stores (env : Env) (stores : CacheStorage) (request : Request)
    (cached : Option Response) (r : Response) (hnet : env.net request = some r)
    (hstatus : r.status = 200) (htype : r.type = "basic") :
    fetchFromNetwork env stores request cached =
      { reply := Reply.response r
        fetched := [request]
        matched := [request]
        puts := [(CACHE_NAME, request, r)]
        unhandled := (storeResponse stores request r).2
        stores := (storeResponse stores request r).1 } := by
  simp [fetchFromNetwork, hnet, hstatus, htype]

/-- The network step on any other response: the response is the reply and
nothing else happens. -/
theorem fetchFromNetwork_passes (env : Env) (stores : CacheStorage) (request : Request)
    (cached : Option Response) (r : Response) (hnet : env.net request = some r)
    (hno : ¬ (r.status = 200 ∧ r.type = "basic")) :
    fetchFromNetwork env stores request cached =
      { reply := Reply.response r
        fetched := [request]
        matched := [request]
        puts := []
        unhandled := none
        stores := stores } := by
  have hcond : r.status ≠ 200 ∨ r.type ≠ "basic" := by
    by_cases h1 : r.status = 200
    · right; exact fun h2 => hno ⟨h1, h2⟩
    · left; exact h1
  simp [fetchFromNetwork, hnet, hcond]

/-- What `cache.put` accepts of a response of status 200. -/
theorem putAccepts_of_200 (request : Request) (r : Response) (hstatus : r.status = 200) :
    putAccepts request r = true ↔
      (request.method = "GET" ∧ hasHttpScheme request.url = true ∧
        variesOnAll r = false) := by
  unfold putAccepts
  simp [hstatus, and_assoc]

/-- A request of a scheme other than `http` and `https` is not stored either. -/
theorem put_of_another_scheme_is_refused :
    urlScheme extensionRequest.url = some "chrome-extension" ∧
    urlScheme stylesRequest.url = none ∧
    urlScheme sheetsRequest.url = some "https" ∧
    putAccepts extensionRequest sampleCss = false ∧
    (fetchHandler originEnv [] extensionRequest).reply = Reply.response sampleCss ∧
    (fetchHandler originEnv [] extensionRequest).stores = [(CACHE_NAME, [])] ∧
    (fetchHandler originEnv [] extensionRequest).unhandled = some Exn.typeError := by
  decide

/-- C6 as stated fails: a form posted to the origin is answered with status 200
and type "basic", and a stylesheet is served with status 200, type "basic" and
`Vary: *`; in both cases the response is the reply, `cache.put` is called and
rejects, and the store `CACHE_NAME` holds no entry afterwards. -/
theorem C6_refused_put_stores_nothing :
    lane postRequest.url = Lane.cacheFirst ∧
    postEnv.net postRequest = some thankYou ∧
    thankYou.status = 200 ∧ thankYou.type = "basic" ∧
    (fetchHandler postEnv [] postRequest).reply = Reply.response thankYou ∧
    storeOf (fetchHandler postEnv [] postRequest).stores CACHE_NAME = some [] ∧
    (fetchHandler postEnv [] postRequest).unhandled = some Exn.typeError ∧
    variedEnv.net stylesRequest = some variedCss ∧
    variedCss.status = 200 ∧ variedCss.type = "basic" ∧
    (fetchHandler variedEnv [] stylesRequest).reply = Reply.response variedCss ∧
    storeOf (fetchHandler variedEnv [] stylesRequest).stores CACHE_NAME = some [] ∧
    (fetchHandler variedEnv [] stylesRequest).unhandled = some Exn.typeError := by
  decide

/-- C6, amended: in the cache-first lane, when the network request is issued and
succeeds with `r`, the reply is `r`, and `cache.put` is called with `r` on the
store `CACHE_NAME` if and only if the status of `r` is 200 and its type is
"basic". When it is called on a `GET` request of an `http` or `https` URL and
a response without `Vary: *`, the store `CACHE_NAME` exists afterwards and answers the request with `r`, the
entries the request matched being replaced by the one new entry, its other
entries and every other store being unchanged. When it is called on a request
of another method or scheme, or a response with `Vary: *`, the put rejects, nobody handles
the rejection, and no entry is written: the stores are what they were, the
store `CACHE_NAME` being created empty when it was missing. When it is not
called the stores are unchanged. -/
theorem C6_network_success_is_returned_and_stored (env : Env)
    (stores : CacheStorage) (request : Request) (r : Response)
    (hlane : lane request.url = Lane.cacheFirst)
    (hissued : (fetchHandler env stores request).fetched = [request])
    (hnet : env.net request = some r) :
    (fetchHandler env stores request).reply = Reply.response r ∧
    ((fetchHandler env stores request).puts = [(CACHE_NAME, request, r)] ↔
      (r.status = 200 ∧ r.type = "basic")) ∧
    ((r.status = 200 ∧ r.type = "basic") →
      (request.method = "GET" ∧ hasHttpScheme request.url = true ∧
        variesOnAll r = false) →
      (∃ c, storeOf (fetchHandler env stores request).stores CACHE_NAME = some c ∧
        cacheMatch c request = some r ∧
        c.filter (fun e => requestMatches request e.1 e.2) = [(request, r)] ∧
        c.filter (fun e => !(requestMatches request e.1 e.2)) =
          ((storeOf stores CACHE_NAME).getD []).filter
            (fun e => !(requestMatches request e.1 e.2))) ∧
      (∀ name, name ≠ CACHE_NAME →
        storeOf (fetchHandler env stores request).stores name = storeOf stores name) ∧
      (fetchHandler env stores request).unhandled = none) ∧
    ((r.status = 200 ∧ r.type = "basic") →
      ¬ (request.method = "GET" ∧ hasHttpScheme request.url = true ∧
        variesOnAll r = false) →
      (fetchHandler env stores request).stores = cachesOpen stores CACHE_NAME ∧
      storeOf (fetchHandler env stores request).stores CACHE_NAME
        = some ((storeOf stores CACHE_NAME).getD []) ∧
      (∀ name, name ≠ CACHE_NAME →
        storeOf (fetchHandler env stores request).stores name = storeOf stores name) ∧
      (fetchHandler env stores request).unhandled = some Exn.typeError) ∧
    (¬ (r.status = 200 ∧ r.type = "basic") →
      (fetchHandler env stores request).puts = [] ∧
      (fetchHandler env stores request).stores = stores ∧
      (fetchHandler env stores request).unhandled = none) := by
  have hcf : fetchHandler env stores request = cacheFirst env stores request := by
    simp [fetchHandler, hlane]
  rw [hcf] at hissued ⊢
  rw [cacheFirst_of_fetched env stores request hissued]
  by_cases hok : r.status = 200 ∧ r.type = "basic"
  · rw [fetchFromNetwork_stores env stores request _ r hnet hok.1 hok.2]
    refine ⟨rfl, ⟨fun _ => hok, fun _ => rfl⟩, ?_, ?_, fun h => absurd hok h⟩
    · intro _ hacc
      have hput : putAccepts request r = true := (putAccepts_of_200 request r hok.1).mpr hacc
      have hself := requestMatches_of_putAccepts request r hput
      have hst : storeResponse stores request r
          = (cachesPut (cachesOpen stores CACHE_NAME) CACHE_NAME request r, none) := by
        simp [storeResponse, hput]
      rw [hst]
      refine ⟨⟨cacheStore ((storeOf stores CACHE_NAME).getD []) request r, ?_,
        cacheMatch_cacheStore _ _ _ hself, cacheStore_entries _ _ _ hself,
        cacheStore_others _ _ _ hself⟩, ?_, rfl⟩
      · rw [storeOf_cachesPut, if_pos rfl, storeOf_cachesOpen, if_pos rfl]
        rfl
      · intro name hname
        rw [storeOf_cachesPut, if_neg hname, storeOf_cachesOpen, if_neg hname]
    · intro _ hrej
      have hput : putAccepts request r = false := by
        cases h : putAccepts request r with
        | false => rfl
        | true => exact absurd ((putAccepts_of_200 request r hok.1).mp h) hrej
      have hst : storeResponse stores request r
          = (cachesOpen stores CACHE_NAME, some Exn.typeError) := by
        simp [storeResponse, hput]
      rw [hst]
      refine ⟨rfl, ?_, ?_, rfl⟩
      · rw [storeOf_cachesOpen, if_pos rfl]
      · intro name hname
        rw [storeOf_cachesOpen, if_neg hname]
  · rw [fetchFromNetwork_passes env stores request _ r hnet hok]
    refine ⟨rfl, ⟨fun h => ?_, fun h => absurd h hok⟩, fun h => absurd h hok,
      fun h => absurd h hok, fun _ => ⟨rfl, rfl, rfl⟩⟩
    exact absurd h (by simp)

/-- C6, amended, at work: the stylesheet fetched from the origin is the reply
and is put into the current generation's store, which then answers the request
with it. -/
theorem C6_network_success_is_returned_and_stored_witness :
    (fetchHandler originEnv sheetsStores stylesRequest).reply
      = Reply.response sampleCss ∧
    (fetchHandler originEnv sheetsStores stylesRequest).puts
      = [(CACHE_NAME, stylesRequest, sampleCss)] ∧
    cachesMatch (fetchHandler originEnv sheetsStores stylesRequest).stores stylesRequest
      = some sampleCss :=
  have h := C6_network_success_is_returned_and_stored originEnv sheetsStores
    stylesRequest sampleCss (by decide) (by decide) rfl
  ⟨h.1, h.2.1.mpr (by decide), by decide⟩

/-! ## The install handler -/

/-- C7 as stated fails: with every request of the install failing, the promise
the handler passes to `event.waitUntil` resolves, so the outcome reported to
the runtime is a success. -/
theorem C7_failed_install_is_reported_as_success :
    (∃ url ∈ urlsToCache, offlineEnv.net (getRequest url) = none) ∧
    (installHandler offlineEnv sampleStores).settled = Settled.resolved ∧
    (installHandler offlineEnv sampleStores).settled ≠ Settled.rejected := by
  refine ⟨⟨"/", by decide, rfl⟩, by decide, by decide⟩

/-- C7, amended: if a resource of `urlsToCache` cannot be fetched (the request
fails or the response is not ok), nothing is stored (the store `CACHE_NAME` is
opened and left as it was), `self.skipWaiting()` is not called, the failure is
logged, and the `.catch` of the handler absorbs it: the promise passed to
`event.waitUntil` resolves, so the outcome reported to the runtime is a
success. -/
theorem C7_failed_install_is_logged (env : Env) (stores : CacheStorage)
    (hfail : ∃ url ∈ urlsToCache, env.net (getRequest url) = none ∨
      ∃ r, env.net (getRequest url) = some r ∧ (r.status < 200 ∨ 299 < r.status)) :
    (installHandler env stores).settled = Settled.resolved ∧
    (installHandler env stores).skipWaiting = false ∧
    (installHandler env stores).log
      = ["ServiceWorker: Caching app shell", "ServiceWorker: Cache failed"] ∧
    (installHandler env stores).stores = cachesOpen stores CACHE_NAME := by
  have h := addAllResponses_of_failure env urlsToCache hfail
  simp [installHandler, cachesAddAll, h]

/-- C7, amended, at work: an install attempted offline. -/
theorem C7_failed_install_is_logged_witness :
    (installHandler offlineEnv sampleStores).settled = Settled.resolved ∧
    (installHandler offlineEnv sampleStores).skipWaiting = false ∧
    (installHandler offlineEnv sampleStores).log
      = ["ServiceWorker: Caching app shell", "ServiceWorker: Cache failed"] ∧
    (installHandler offlineEnv sampleStores).stores = cachesOpen sampleStores CACHE_NAME :=
  C7_failed_install_is_logged offlineEnv sampleStores
    ⟨"/", by decide, Or.inl rfl⟩


/-! ## The activate handler -/

/-- C8: for every list of stores, after activation with every deletion
succeeding the stores that remain are exactly the stores named `CACHE_NAME`:
every store of another name is deleted, also one whose name extends
`CACHE_NAME` (such as `CACHE_NAME` followed by "-data"), the store `CACHE_NAME`
keeps its entries, and the clients are claimed. -/
theorem C8_activation_keeps_only_current (env : Env) (stores : CacheStorage)
    (hok : ∀ name, env.deleteFails name = false) :
    (activateHandler env stores).stores = stores.filter (fun s => s.1 == CACHE_NAME) ∧
    (∀ s, s ∈ (activateHandler env stores).stores ↔ (s ∈ stores ∧ s.1 = CACHE_NAME)) ∧
    (∀ c, (CACHE_NAME ++ "-data", c) ∉ (activateHandler env stores).stores) ∧
    storeOf (activateHandler env stores).stores CACHE_NAME = storeOf stores CACHE_NAME ∧
    (activateHandler env stores).claimed = true ∧
    (activateHandler env stores).settled = Settled.resolved := by
  have hfailed : (deleteOld env (cachesKeys stores)
      { stores := stores, log := [], failed := false }).failed = false := by
    rw [deleteOld_failed]
    simp [hok]
  have hstores : (activateHandler env stores).stores
      = stores.filter (fun s => s.1 == CACHE_NAME) := by
    simp only [activateHandler, hfailed, Bool.false_eq_true, if_false]
    rw [activate_stores]
    apply List.filter_congr
    intro s _
    simp [hok]
  refine ⟨hstores, ?_, ?_, ?_, ?_, ?_⟩
  · intro s
    rw [hstores, List.mem_filter]
    simp
  · intro c hc
    rw [hstores, List.mem_filter] at hc
    have hne : ¬ (CACHE_NAME ++ "-data" = CACHE_NAME) := by decide
    exact hne (by simpa using hc.2)
  · rw [hstores, storeOf_filter_name]
  · simp [activateHandler, hfailed]
  · simp [activateHandler, hfailed]

/-- C8 at work: of four stores only the current generation is left. -/
theorem C8_activation_keeps_only_current_witness :
    (activateHandler offlineEnv threeStores).stores
      = [(CACHE_NAME, [(stylesRequest, sampleCss)])] ∧
    (activateHandler offlineEnv threeStores).claimed = true ∧
    (activateHandler offlineEnv threeStores).settled = Settled.resolved :=
  have h := C8_activation_keeps_only_current offlineEnv threeStores (fun _ => rfl)
  ⟨h.1.trans (by decide), h.2.2.2.2.1, h.2.2.2.2.2⟩

/-- C9 as stated fails: when the deletion of the stale store
`saudi-music-db-v0` fails, the other stale stores are deleted, but the clients
are not claimed and the promise passed to `event.waitUntil` rejects. -/
theorem C9_failed_deletion_aborts_activation :
    stuckEnv.deleteFails "saudi-music-db-v0" = true ∧
    (activateHandler stuckEnv threeStores).stores
      = [("saudi-music-db-v0", [(stylesRequest, sampleCss)]),
         (CACHE_NAME, [(stylesRequest, sampleCss)])] ∧
    (activateHandler stuckEnv threeStores).claimed = false ∧
    (activateHandler stuckEnv threeStores).settled = Settled.rejected := by
  decide

/-- C9, amended: if deleting a stale store fails, every stale store whose own
deletion does not fail is still deleted, but `Promise.all` rejects: the handler
does not call `clients.claim()` and the outcome it reports is a failure. -/
theorem C9_failed_deletion_rejects_activation (env : Env) (stores : CacheStorage)
    (bad : String) (hbad : bad ∈ cachesKeys stores) (hstale : bad ≠ CACHE_NAME)
    (hfails : env.deleteFails bad = true) :
    (∀ s, s ∈ stores → s.1 ≠ CACHE_NAME → env.deleteFails s.1 = false →
      s ∉ (activateHandler env stores).stores) ∧
    (activateHandler env stores).stores
      = stores.filter (fun s => s.1 == CACHE_NAME || env.deleteFails s.1) ∧
    (activateHandler env stores).claimed = false ∧
    (activateHandler env stores).settled = Settled.rejected := by
  have hfailed : (deleteOld env (cachesKeys stores)
      { stores := stores, log := [], failed := false }).failed = true := by
    rw [deleteOld_failed]
    simp only [Bool.false_or, List.any_eq_true]
    exact ⟨bad, hbad, by simp [hstale, hfails]⟩
  have hstores : (activateHandler env stores).stores
      = stores.filter (fun s => s.1 == CACHE_NAME || env.deleteFails s.1) := by
    simp only [activateHandler, hfailed, if_true]
    exact activate_stores env stores
  refine ⟨?_, hstores, ?_, ?_⟩
  · intro s _ hname hdel hmem
    rw [hstores, List.mem_filter] at hmem
    simp [hname, hdel] at hmem
  · simp [activateHandler, hfailed]
  · simp [activateHandler, hfailed]

/-- C9, amended, at work: one of two stale stores cannot be deleted. -/
theorem C9_failed_deletion_rejects_activation_witness :
    (activateHandler stuckEnv threeStores).stores
      = [("saudi-music-db-v0", [(stylesRequest, sampleCss)]),
         (CACHE_NAME, [(stylesRequest, sampleCss)])] ∧
    (activateHandler stuckEnv threeStores).claimed = false ∧
    (activateHandler stuckEnv threeStores).settled = Settled.rejected :=
  have h := C9_failed_deletion_rejects_activation stuckEnv threeStores
    "saudi-music-db-v0" (by decide) (by decide) (by decide)
  ⟨h.2.1.trans (by decide), h.2.2.1, h.2.2.2⟩


/-! ## The message handler -/

/-- C10: for every list of stores, a `CLEAR_CACHE` message with a reply channel
deletes the store `CACHE_NAME`, leaves every other store unchanged, and posts
the string "Cache cleared" on the first reply channel, once, without an
error. -/
theorem C10_clear_deletes_and_replies (stores : CacheStorage) (event : MessageEvent)
    (port : String) (rest : List String)
    (hdata : event.data = some (some "CLEAR_CACHE"))
    (hports : event.ports = port :: rest) :
    storeOf (messageHandler stores event).stores CACHE_NAME = none ∧
    (∀ s, s ∈ (messageHandler stores event).stores ↔ (s ∈ stores ∧ s.1 ≠ CACHE_NAME)) ∧
    (∀ name, name ≠ CACHE_NAME →
      storeOf (messageHandler stores event).stores name = storeOf stores name) ∧
    (messageHandler stores event).stores = stores.filter (fun s => !(s.1 == CACHE_NAME)) ∧
    (messageHandler stores event).posted = [(port, "Cache cleared")] ∧
    (messageHandler stores event).unhandled = none ∧
    (messageHandler stores event).skipWaiting = false := by
  have hout : messageHandler stores event =
      { skipWaiting := false
        posted := [(port, "Cache cleared")]
        unhandled := none
        stores := cachesDelete stores CACHE_NAME } := by
    simp [messageHandler, hdata, hports]
  rw [hout]
  refine ⟨?_, ?_, ?_, rfl, rfl, rfl, rfl⟩
  · show storeOf (cachesDelete stores CACHE_NAME) CACHE_NAME = none
    rw [storeOf_cachesDelete, if_pos rfl]
  · intro s
    show s ∈ cachesDelete stores CACHE_NAME ↔ _
    simp [cachesDelete, List.mem_filter]
  · intro name hname
    show storeOf (cachesDelete stores CACHE_NAME) name = _
    rw [storeOf_cachesDelete, if_neg hname]

/-- C10 at work: the current generation is deleted and the reply is posted. -/
theorem C10_clear_deletes_and_replies_witness :
    (messageHandler threeStores { data := some (some "CLEAR_CACHE"), ports := ["reply"] }).stores
      = [("saudi-music-db-v0", [(stylesRequest, sampleCss)]),
         ("saudi-music-db-beta", []),
         ("saudi-music-db-v1-data", [])] ∧
    (messageHandler threeStores { data := some (some "CLEAR_CACHE"), ports := ["reply"] }).posted
      = [("reply", "Cache cleared")] :=
  have h := C10_clear_deletes_and_replies threeStores
    { data := some (some "CLEAR_CACHE"), ports := ["reply"] } "reply" [] rfl rfl
  ⟨h.2.2.2.1.trans (by decide), h.2.2.2.2.1⟩

/-! ## The store after a clear message, and the look-up across stores -/

/-- `caches.match` finds nothing exactly when no store has an entry the request matches. -/
theorem cachesMatch_eq_none_iff (cs : CacheStorage) (request : Request) :
    cachesMatch cs request = none ↔ ∀ s ∈ cs, cacheMatch s.2 request = none := by
  induction cs with
  | nil => simp [cachesMatch]
  | cons s rest ih =>
    unfold cachesMatch at ih ⊢
    rw [List.findSome?_cons]
    cases hs : cacheMatch s.2 request with
    | none => simp [hs, ih]
    | some r => simp [hs]

/-- `caches.match` answers from the first store, in creation order, that has an
entry the request matches. -/
theorem cachesMatch_first (pre : CacheStorage) (s : String × Cache) (post : CacheStorage)
    (request : Request) (r : Response)
    (hpre : ∀ t ∈ pre, cacheMatch t.2 request = none) (hs : cacheMatch s.2 request = some r) :
    cachesMatch (pre ++ s :: post) request = some r := by
  induction pre with
  | nil => simp [cachesMatch, List.findSome?_cons, hs]
  | cons t rest ih =>
    have ht : cacheMatch t.2 request = none := hpre t (List.mem_cons_self _ _)
    have hrest : ∀ t ∈ rest, cacheMatch t.2 request = none :=
      fun x hx => hpre x (List.mem_cons_of_mem _ hx)
    unfold cachesMatch at ih ⊢
    rw [List.cons_append, List.findSome?_cons, ht]
    exact ih hrest

/-- A `CLEAR_CACHE` message deletes the store `CACHE_NAME`, with or without a
reply channel. -/
theorem messageHandler_clear_stores (stores : CacheStorage) (event : MessageEvent)
    (hdata : event.data = some (some "CLEAR_CACHE")) :
    (messageHandler stores event).stores = cachesDelete stores CACHE_NAME := by
  unfold messageHandler
  rw [if_pos hdata]
  cases event.ports.head? <;> rfl

/-- With no entry found, the cache-first lane runs its network step. -/
theorem cacheFirst_miss (env : Env) (stores : CacheStorage) (request : Request)
    (hmiss : cachesMatch stores request = none) :
    cacheFirst env stores request = fetchFromNetwork env stores request none := by
  simp [cacheFirst, hmiss]

/-- With an entry found that fails the expiry check, the cache-first lane runs
its network step. -/
theorem cacheFirst_not_fresh (env : Env) (stores : CacheStorage) (request : Request)
    (r : Response) (hm : cachesMatch stores request = some r) (hf : isFresh env r = false) :
    cacheFirst env stores request = fetchFromNetwork env stores request (some r) := by
  simp [cacheFirst, hm, hf]

/-- The network step issues the network request. -/
theorem fetchFromNetwork_fetched (env : Env) (stores : CacheStorage) (request : Request)
    (cached : Option Response) :
    (fetchFromNetwork env stores request cached).fetched = [request] := by
  unfold fetchFromNetwork
  cases env.net request with
  | none => rfl
  | some r => dsimp only; split <;> rfl

/-- The network step replies with the network response when there is one. -/
theorem fetchFromNetwork_reply (env : Env) (stores : CacheStorage) (request : Request)
    (cached : Option Response) (r : Response) (hnet : env.net request = some r) :
    (fetchFromNetwork env stores request cached).reply = Reply.response r := by
  unfold fetchFromNetwork
  rw [hnet]
  dsimp only
  split <;> rfl

/-- The network step puts into the store `CACHE_NAME` only. -/
theorem fetchFromNetwork_puts (env : Env) (stores : CacheStorage) (request : Request)
    (cached : Option Response) :
    ∀ p ∈ (fetchFromNetwork env stores request cached).puts, p.1 = CACHE_NAME := by
  unfold fetchFromNetwork
  cases env.net request with
  | none => simp
  | some r =>
    dsimp only
    split
    · simp
    · simp

/-- C11: for a key that has no entry in a store other than `CACHE_NAME`, after
the message handler has processed a `CLEAR_CACHE` message the next cache-first
request for the key finds nothing in the stores and issues a network request,
whose response, when there is one, is the reply; this holds however fresh an
entry of the store `CACHE_NAME` was. -/
theorem C11_clear_makes_the_next_request_a_miss (env : Env) (stores : CacheStorage)
    (event : MessageEvent) (request : Request)
    (hdata : event.data = some (some "CLEAR_CACHE"))
    (hlane : lane request.url = Lane.cacheFirst)
    (hothers : ∀ s ∈ stores, s.1 ≠ CACHE_NAME → cacheMatch s.2 request = none) :
    cachesMatch (messageHandler stores event).stores request = none ∧
    (fetchHandler env (messageHandler stores event).stores request).fetched = [request] ∧
    (∀ r, env.net request = some r →
      (fetchHandler env (messageHandler stores event).stores request).reply
        = Reply.response r) := by
  have hmiss : cachesMatch (messageHandler stores event).stores request = none := by
    rw [messageHandler_clear_stores stores event hdata, cachesMatch_eq_none_iff]
    intro s hs
    have hmem := List.mem_filter.mp hs
    exact hothers s hmem.1 (by simpa using hmem.2)
  have hcf : fetchHandler env (messageHandler stores event).stores request
      = fetchFromNetwork env (messageHandler stores event).stores request none := by
    simp [fetchHandler, hlane, cacheFirst_miss env _ request hmiss]
  refine ⟨hmiss, ?_, ?_⟩
  · rw [hcf]; exact fetchFromNetwork_fetched _ _ _ _
  · intro r hnet
    rw [hcf]; exact fetchFromNetwork_reply _ _ _ _ r hnet

/-- C11 at work: the fresh stylesheet is served from the store before the clear
message and requested from the network after it. -/
theorem C11_clear_makes_the_next_request_a_miss_witness :
    (fetchHandler originEnv sampleStores stylesRequest).fetched = [] ∧
    (fetchHandler originEnv
      (messageHandler sampleStores clearWithoutPort).stores stylesRequest).fetched
      = [stylesRequest] :=
  ⟨by decide,
   (C11_clear_makes_the_next_request_a_miss originEnv sampleStores clearWithoutPort
      stylesRequest rfl (by decide) (by decide)).2.1⟩

/-- C12 as stated fails: the store `CACHE_NAME` is empty and a store of another
name holds a fresh entry for the key; the cache-first lane replies with that
entry and issues no network request. -/
theorem C12_entry_of_another_store_is_served :
    lane stylesRequest.url = Lane.cacheFirst ∧
    storeOf legacyStores CACHE_NAME = some [] ∧
    (fetchHandler originEnv legacyStores stylesRequest).reply = Reply.response sampleCss ∧
    (fetchHandler originEnv legacyStores stylesRequest).fetched = [] := by
  decide

/-- C12, amended: the cache-first lane looks the key up with `caches.match`,
which searches every store in creation order: a fresh entry of the first store
that has one for the key is the reply and prevents the network request, whatever
the name of that store; when no store has an entry for the key the network
request is issued; and the lane puts into the store `CACHE_NAME` only. -/
theorem C12_lookup_spans_every_store (env : Env) (stores : CacheStorage) (request : Request)
    (hlane : lane request.url = Lane.cacheFirst) :
    (∀ pre s post r, stores = pre ++ s :: post →
      (∀ t ∈ pre, cacheMatch t.2 request = none) → cacheMatch s.2 request = some r →
      isFresh env r = true →
      (fetchHandler env stores request).reply = Reply.response r ∧
      (fetchHandler env stores request).fetched = []) ∧
    ((∀ s ∈ stores, cacheMatch s.2 request = none) →
      (fetchHandler env stores request).fetched = [request]) ∧
    (∀ p ∈ (fetchHandler env stores request).puts, p.1 = CACHE_NAME) := by
  have hcf : fetchHandler env stores request = cacheFirst env stores request := by
    simp [fetchHandler, hlane]
  rw [hcf]
  refine ⟨?_, ?_, ?_⟩
  · intro pre s post r hst hpre hs hfresh
    have hm : cachesMatch stores request = some r := by
      rw [hst]; exact cachesMatch_first pre s post request r hpre hs
    simp [cacheFirst, hm, hfresh]
  · intro hnone
    have hmiss := (cachesMatch_eq_none_iff stores request).mpr hnone
    rw [cacheFirst_miss env stores request hmiss]
    exact fetchFromNetwork_fetched _ _ _ _
  · unfold cacheFirst
    cases hm : cachesMatch stores request with
    | none => exact fetchFromNetwork_puts _ _ _ _
    | some r =>
      cases hf : isFresh env r with
      | true => simp [hf]
      | false => simpa [hf] using fetchFromNetwork_puts env stores request (some r)

/-- C12, amended, at work: the entry of the store `saudi-music-db-v0` is served. -/
theorem C12_lookup_spans_every_store_witness :
    (fetchHandler originEnv legacyStores stylesRequest).reply = Reply.response sampleCss ∧
    (fetchHandler originEnv legacyStores stylesRequest).fetched = [] :=
  (C12_lookup_spans_every_store originEnv legacyStores stylesRequest (by decide)).1
    [] ("saudi-music-db-v0", [(stylesRequest, sampleCss)]) [(CACHE_NAME, [])] sampleCss
    rfl (by decide) (by decide) (by decide)

/-! ## The install handler: stores and readiness -/

/-- A put creates and deletes no store. -/
theorem cachesPut_keys (cs : CacheStorage) (name : String) (request : Request)
    (r : Response) : cachesKeys (cachesPut cs name request r) = cachesKeys cs := by
  induction cs with
  | nil => rfl
  | cons s rest ih =>
    unfold cachesKeys at ih ⊢
    rw [cachesPut_cons, List.map_cons, List.map_cons, ih]
    by_cases hs : s.1 = name <;> simp [hs]

/-- A put leaves the stores of other names as they were. -/
theorem cachesPut_others (cs : CacheStorage) (name : String) (request : Request)
    (r : Response) :
    (cachesPut cs name request r).filter (fun s => !(s.1 == name))
      = cs.filter (fun s => !(s.1 == name)) := by
  induction cs with
  | nil => rfl
  | cons s rest ih =>
    rw [cachesPut_cons, List.filter_cons, List.filter_cons, ih]
    by_cases hs : s.1 = name <;> simp [hs]

/-- A batch of puts creates and deletes no store. -/
theorem foldl_cachesPut_keys (rs : List (String × Response)) (cs : CacheStorage)
    (name : String) :
    cachesKeys (rs.foldl (fun acc e => cachesPut acc name (getRequest e.1) e.2) cs)
      = cachesKeys cs := by
  induction rs generalizing cs with
  | nil => rfl
  | cons e rest ih => rw [List.foldl_cons, ih, cachesPut_keys]

/-- A batch of puts leaves the stores of other names as they were. -/
theorem foldl_cachesPut_others (rs : List (String × Response)) (cs : CacheStorage)
    (name : String) :
    (rs.foldl (fun acc e => cachesPut acc name (getRequest e.1) e.2) cs).filter
        (fun s => !(s.1 == name))
      = cs.filter (fun s => !(s.1 == name)) := by
  induction rs generalizing cs with
  | nil => rfl
  | cons e rest ih => rw [List.foldl_cons, ih, cachesPut_others]

/-- A batch of puts into a store is the batch of puts on its entries. -/
theorem foldl_cachesPut_storeOf (rs : List (String × Response)) (cs : CacheStorage)
    (name : String) :
    storeOf (rs.foldl (fun acc e => cachesPut acc name (getRequest e.1) e.2) cs) name
      = (storeOf cs name).map
          (fun c => rs.foldl (fun c e => cacheStore c (getRequest e.1) e.2) c) := by
  induction rs generalizing cs with
  | nil => simp
  | cons e rest ih =>
    rw [List.foldl_cons, ih, storeOf_cachesPut, if_pos rfl]
    cases storeOf cs name <;> simp

/-- Opening a store leaves the stores of other names as they were. -/
theorem cachesOpen_others (cs : CacheStorage) (name : String) :
    (cachesOpen cs name).filter (fun s => !(s.1 == name))
      = cs.filter (fun s => !(s.1 == name)) := by
  unfold cachesOpen
  split
  · rfl
  · simp [List.filter_append]

/-- Opening a store deletes no store. -/
theorem cachesOpen_keys (cs : CacheStorage) (name other : String)
    (h : other ∈ cachesKeys cs) : other ∈ cachesKeys (cachesOpen cs name) := by
  unfold cachesOpen
  split
  · exact h
  · unfold cachesKeys at h ⊢
    rw [List.map_append]
    exact List.mem_append_left _ h

/-- Stores that agree outside one name agree on every other name. -/
theorem storeOf_of_others (cs cs' : CacheStorage) (name other : String)
    (hne : other ≠ name)
    (h : cs'.filter (fun s => !(s.1 == name)) = cs.filter (fun s => !(s.1 == name))) :
    storeOf cs' other = storeOf cs other := by
  have key : ∀ l : CacheStorage,
      storeOf (l.filter (fun s => !(s.1 == name))) other = storeOf l other := by
    intro l
    have := storeOf_cachesDelete l name other
    rw [if_neg hne] at this
    exact this
  rw [← key cs', ← key cs, h]

/-- A batch that succeeds holds, for each URL in order, the response the network
gave to it, none of which has `Vary: *`. -/
theorem addAllResponses_some (env : Env) (urls : List String)
    (rs : List (String × Response)) (h : addAllResponses env urls = some rs) :
    rs.map Prod.fst = urls ∧
    ∀ e ∈ rs, env.net (getRequest e.1) = some e.2 ∧ variesOnAll e.2 = false := by
  induction urls generalizing rs with
  | nil =>
    simp only [addAllResponses, Option.some.injEq] at h
    subst h
    simp
  | cons url rest ih =>
    unfold addAllResponses at h
    cases hn : env.net (getRequest url) with
    | none => rw [hn] at h; exact Option.noConfusion h
    | some r =>
      rw [hn] at h
      dsimp only at h
      split at h
      · rename_i hok
        cases hrest : addAllResponses env rest with
        | none => rw [hrest] at h; exact Option.noConfusion h
        | some rs' =>
          rw [hrest] at h
          simp only [Option.map_some', Option.some.injEq] at h
          subst h
          obtain ⟨h1, h2⟩ := ih rs' hrest
          refine ⟨by simp [h1], ?_⟩
          intro e he
          rcases List.mem_cons.mp he with he | he
          · subst he; exact ⟨hn, hok.2.2.2.2⟩
          · exact h2 e he
      · exact Option.noConfusion h

/-- The batch of `http` and `https` URLs succeeds exactly when every resource is
fetched successfully with a response that has no `Vary: *`. -/
theorem addAllResponses_isSome_iff (env : Env) (urls : List String)
    (hscheme : ∀ url ∈ urls, hasHttpScheme url = true) :
    (addAllResponses env urls).isSome = true ↔
      ∀ url ∈ urls, fetchedSuccessfully env url = true ∧
        ∀ r, env.net (getRequest url) = some r → variesOnAll r = false := by
  induction urls with
  | nil => simp [addAllResponses]
  | cons url rest ih =>
    have hfirst : hasHttpScheme url = true := hscheme url (List.mem_cons_self _ _)
    have ih := ih (fun u hu => hscheme u (List.mem_cons_of_mem _ hu))
    unfold addAllResponses
    simp only [List.mem_cons, forall_eq_or_imp]
    cases hn : env.net (getRequest url) with
    | none => simp [fetchedSuccessfully, hn]
    | some r =>
      dsimp only
      by_cases hok : hasHttpScheme url = true ∧ 200 ≤ r.status ∧ r.status ≤ 299 ∧
          r.status ≠ 206 ∧ variesOnAll r = false
      · rw [if_pos hok]
        have hf : fetchedSuccessfully env url = true := by
          simp [fetchedSuccessfully, hn, hok.2.1, hok.2.2.1, hok.2.2.2.1]
        have hv : ∀ r', some r = some r' → variesOnAll r' = false := by
          intro r' hr'
          cases hr'
          exact hok.2.2.2.2
        rw [← ih]
        cases addAllResponses env rest <;> simp [hf, hv]
      · rw [if_neg hok]
        simp only [Option.isSome_none, Bool.false_eq_true, false_iff, not_and]
        intro hhead
        exfalso
        apply hok
        have hs := hhead.1
        simp only [fetchedSuccessfully, hn, decide_eq_true_eq] at hs
        exact ⟨hfirst, hs.1, hs.2.1, hs.2.2, hhead.2 r rfl⟩

/-- Looking for the first entry of a kind is not disturbed by removing entries
that are not of that kind. -/
theorem find?_filter_of_imp {α : Type} (l : List α) (p keep : α → Bool)
    (h : ∀ a, p a = true → keep a = true) :
    (l.filter keep).find? p = l.find? p := by
  induction l with
  | nil => rfl
  | cons a rest ih =>
    rw [List.filter_cons]
    cases hk : keep a with
    | true =>
      simp only [if_true, List.find?_cons, ih]
    | false =>
      have hp : p a = false := by
        cases hpa : p a with
        | false => rfl
        | true => rw [h a hpa] at hk; exact absurd hk (by simp)
      simp only [Bool.false_eq_true, if_false, List.find?_cons, hp, ih]

/-- A put does not change what the store answers to a request for another URL. -/
theorem cacheMatch_cacheStore_other (c : Cache) (request other : Request)
    (r : Response)
    (hne : stripFragment other.url ≠ stripFragment request.url) :
    cacheMatch (cacheStore c request r) other = cacheMatch c other := by
  unfold cacheMatch cacheStore
  rw [List.find?_append]
  have hlast : List.find? (fun e => requestMatches other e.1 e.2) [(request, r)] = none := by
    have hno : requestMatches other request r = false := by
      cases h : requestMatches other request r with
      | false => rfl
      | true => exact absurd (requestMatches_url other request r h) hne
    simp [List.find?_cons, hno]
  rw [hlast, Option.or_none]
  congr 1
  apply find?_filter_of_imp
  intro e he
  have h1 := requestMatches_url other e.1 e.2 he
  cases h2 : requestMatches request e.1 e.2 with
  | false => rfl
  | true =>
    have h3 := requestMatches_url request e.1 e.2 h2
    exact absurd (h1.trans h3.symm) hne

/-- A batch of puts does not change what the store answers to a request for a
URL outside the batch. -/
theorem cacheMatch_foldl_absent (rs : List (String × Response)) (c : Cache)
    (other : Request)
    (habsent : stripFragment other.url ∉ rs.map (fun e => stripFragment e.1)) :
    cacheMatch (rs.foldl (fun c e => cacheStore c (getRequest e.1) e.2) c) other
      = cacheMatch c other := by
  induction rs generalizing c with
  | nil => rfl
  | cons e rest ih =>
    have hne : stripFragment other.url ≠ stripFragment (getRequest e.1).url :=
      fun h => habsent (by simp [getRequest] at h; simp [h])
    have hrest : stripFragment other.url ∉ rest.map (fun e => stripFragment e.1) :=
      fun h => habsent (by simp at h ⊢; exact Or.inr h)
    rw [List.foldl_cons, ih _ hrest, cacheMatch_cacheStore_other _ _ _ _ hne]

/-- After a batch of puts to distinct URLs the store answers the request of each
URL of the batch with the response put for it. -/
theorem cacheMatch_foldl_present (rs : List (String × Response)) (c : Cache)
    (url : String) (r : Response)
    (hnodup : (rs.map (fun e => stripFragment e.1)).Nodup)
    (hvary : ∀ e ∈ rs, variesOnAll e.2 = false)
    (hmem : (url, r) ∈ rs) :
    cacheMatch (rs.foldl (fun c e => cacheStore c (getRequest e.1) e.2) c) (getRequest url)
      = some r := by
  induction rs generalizing c with
  | nil => simp at hmem
  | cons e rest ih =>
    rw [List.map_cons, List.nodup_cons] at hnodup
    rw [List.foldl_cons]
    rcases List.mem_cons.mp hmem with he | he
    · subst he
      have hself : requestMatches (getRequest url) (getRequest url) r = true :=
        requestMatches_self _ _ rfl (hvary (url, r) (List.mem_cons_self _ _))
      rw [cacheMatch_foldl_absent rest _ (getRequest url) hnodup.1,
        cacheMatch_cacheStore _ _ _ hself]
    · exact ih _ hnodup.2 (fun x hx => hvary x (List.mem_cons_of_mem _ hx)) he

/-- The stores after the install. -/
theorem installHandler_stores (env : Env) (stores : CacheStorage) :
    (installHandler env stores).stores =
      match addAllResponses env urlsToCache with
      | some rs => rs.foldl (fun acc e => cachesPut acc CACHE_NAME (getRequest e.1) e.2)
          (cachesOpen stores CACHE_NAME)
      | none => cachesOpen stores CACHE_NAME := by
  unfold installHandler cachesAddAll
  cases addAllResponses env urlsToCache <;> rfl

/-- `self.skipWaiting()` is called exactly when the batch succeeds. -/
theorem installHandler_skipWaiting (env : Env) (stores : CacheStorage) :
    (installHandler env stores).skipWaiting = (addAllResponses env urlsToCache).isSome := by
  unfold installHandler cachesAddAll
  cases addAllResponses env urlsToCache <;> rfl

/-- C13: whether the install succeeds or fails, the stores whose name is not
`CACHE_NAME` are, in order, exactly the stores they were, with the entries they
had, and no store is deleted: every name of a store before the install is the
name of a store after it. -/
theorem C13_install_deletes_nothing (env : Env) (stores : CacheStorage) :
    (installHandler env stores).stores.filter (fun s => !(s.1 == CACHE_NAME))
      = stores.filter (fun s => !(s.1 == CACHE_NAME)) ∧
    (∀ name, name ≠ CACHE_NAME →
      storeOf (installHandler env stores).stores name = storeOf stores name) ∧
    (∀ name, name ∈ cachesKeys stores →
      name ∈ cachesKeys (installHandler env stores).stores) := by
  have hothers : (installHandler env stores).stores.filter (fun s => !(s.1 == CACHE_NAME))
      = stores.filter (fun s => !(s.1 == CACHE_NAME)) := by
    rw [installHandler_stores]
    cases addAllResponses env urlsToCache with
    | none => exact cachesOpen_others stores CACHE_NAME
    | some rs =>
      show List.filter _ (rs.foldl _ _) = _
      rw [foldl_cachesPut_others, cachesOpen_others]
  refine ⟨hothers, fun name hne => storeOf_of_others _ _ CACHE_NAME name hne hothers, ?_⟩
  intro name hname
  rw [installHandler_stores]
  cases addAllResponses env urlsToCache with
  | none => exact cachesOpen_keys stores CACHE_NAME name hname
  | some rs =>
    show name ∈ cachesKeys (rs.foldl _ _)
    rw [foldl_cachesPut_keys]
    exact cachesOpen_keys stores CACHE_NAME name hname

/-- C14 as stated fails: every resource of `urlsToCache` is fetched successfully,
each response carrying `Vary: *`; `cache.addAll` refuses such a response, the
batch fails and `self.skipWaiting()` is not called. -/
theorem C14_refused_response_blocks_readiness :
    (∀ url ∈ urlsToCache, fetchedSuccessfully variedEnv url = true) ∧
    (installHandler variedEnv []).skipWaiting = false ∧
    (installHandler variedEnv []).stores = [(CACHE_NAME, [])] := by
  decide

/-- C14, amended: the install handler calls `self.skipWaiting()` if and only if
every resource of `urlsToCache` is fetched successfully with a response that
`cache.addAll` accepts (one without `Vary: *`), and in that case the store
`CACHE_NAME` answers the request of each of the six URLs of `urlsToCache` with
the response the network gave to it. -/
theorem C14_skip_waiting_iff_all_stored (env : Env) (stores : CacheStorage) :
    ((installHandler env stores).skipWaiting = true ↔
      ∀ url ∈ urlsToCache, fetchedSuccessfully env url = true ∧
        ∀ r, env.net (getRequest url) = some r → variesOnAll r = false) ∧
    ((installHandler env stores).skipWaiting = true →
      ∀ url ∈ urlsToCache, ∃ c r,
        storeOf (installHandler env stores).stores CACHE_NAME = some c ∧
        env.net (getRequest url) = some r ∧ cacheMatch c (getRequest url) = some r) ∧
    urlsToCache.length = 6 := by
  refine ⟨?_, ?_, rfl⟩
  · rw [installHandler_skipWaiting]
    exact addAllResponses_isSome_iff env urlsToCache (by decide)
  · intro hskip url hurl
    rw [installHandler_skipWaiting] at hskip
    rw [installHandler_stores]
    cases hrs : addAllResponses env urlsToCache with
    | none => rw [hrs] at hskip; simp at hskip
    | some rs =>
      obtain ⟨hkeys, hnet⟩ := addAllResponses_some env urlsToCache rs hrs
      have hnodup : (rs.map (fun e => stripFragment e.1)).Nodup := by
        have : rs.map (fun e => stripFragment e.1) = (rs.map Prod.fst).map stripFragment := by
          rw [List.map_map]; rfl
        rw [this, hkeys]; decide
      have hin : url ∈ rs.map Prod.fst := by rw [hkeys]; exact hurl
      obtain ⟨e, he, heq⟩ := List.mem_map.mp hin
      refine ⟨rs.foldl (fun c e => cacheStore c (getRequest e.1) e.2)
        ((storeOf stores CACHE_NAME).getD []), e.2, ?_, ?_, ?_⟩
      · show storeOf (rs.foldl _ _) CACHE_NAME = _
        rw [foldl_cachesPut_storeOf, storeOf_cachesOpen, if_pos rfl]
        rfl
      · rw [← heq]; exact (hnet e he).1
      · apply cacheMatch_foldl_present rs _ url e.2 hnodup (fun x hx => (hnet x hx).2)
        rw [← heq]
        exact he

/-- C14, amended, at work: online, every resource being the stylesheet, the
install calls `self.skipWaiting()` and the store answers the request for the
home page. -/
theorem C14_skip_waiting_iff_all_stored_witness :
    (installHandler originEnv []).skipWaiting = true ∧
    cachesMatch (installHandler originEnv []).stores (getRequest "/") = some sampleCss :=
  ⟨(C14_skip_waiting_iff_all_stored originEnv []).1.mpr (by decide), by decide⟩

/-! ## Messages without effect, undated and expired entries -/

/-- C15, at the input where the code departs from it: a `CLEAR_CACHE` message
without a reply channel. The store `CACHE_NAME` is deleted, then
`event.ports[0].postMessage(...)` throws a `TypeError` inside the promise:
nothing is posted and the promise rejects with no handler. -/
theorem C15_clear_without_port_rejects :
    (messageHandler sampleStores clearWithoutPort).stores = [] ∧
    (messageHandler sampleStores clearWithoutPort).posted = [] ∧
    (messageHandler sampleStores clearWithoutPort).unhandled = some Exn.typeError := by
  decide

/-- C16: a message whose data is absent, has no type, or has a type other than
`SKIP_WAITING` and `CLEAR_CACHE` is ignored: no error, no store is changed,
`self.skipWaiting()` is not called and nothing is posted. -/
theorem C16_other_messages_are_ignored (stores : CacheStorage) (event : MessageEvent)
    (hskip : event.data ≠ some (some "SKIP_WAITING"))
    (hclear : event.data ≠ some (some "CLEAR_CACHE")) :
    (messageHandler stores event).unhandled = none ∧
    (messageHandler stores event).stores = stores ∧
    (messageHandler stores event).skipWaiting = false ∧
    (messageHandler stores event).posted = [] := by
  simp [messageHandler, hskip, hclear]

/-- C16 at work: a message without data, one without a type, and one with an
unknown type. -/
theorem C16_other_messages_are_ignored_witness :
    (∀ ports, (messageHandler threeStores { data := none, ports := ports }).stores
      = threeStores) ∧
    (messageHandler threeStores { data := some none, ports := ["reply"] }).posted = [] ∧
    (messageHandler threeStores
      { data := some (some "clear_cache"), ports := ["reply"] }).unhandled = none :=
  ⟨fun ports => (C16_other_messages_are_ignored threeStores
      { data := none, ports := ports } (by simp) (by simp)).2.1,
   (C16_other_messages_are_ignored threeStores
      { data := some none, ports := ["reply"] } (by decide) (by decide)).2.2.2,
   (C16_other_messages_are_ignored threeStores
      { data := some (some "clear_cache"), ports := ["reply"] }
      (by decide) (by decide)).1⟩

/-- An entry without a `date` header fails the expiry check. -/
theorem isFresh_of_no_date (env : Env) (r : Response)
    (hdate : headersGet r.headers "date" = none) : isFresh env r = false := by
  simp [isFresh, hdate]

/-- C17 as stated fails: the stored stylesheet has no `date` header, and a
request for it is not answered from the store: the network request is issued
and its response is the reply. -/
theorem C17_undated_entry_is_refetched :
    headersGet undatedCss.headers "date" = none ∧
    cachesMatch undatedStores stylesRequest = some undatedCss ∧
    (fetchHandler originEnv undatedStores stylesRequest).fetched = [stylesRequest] ∧
    (fetchHandler originEnv undatedStores stylesRequest).reply
      = Reply.response sampleCss := by
  decide

/-- C17, amended: in the cache-first lane a stored entry without a `date` header
is never treated as fresh: every request for its key issues the network
request; the reply is the network response when the request succeeds and the
stored entry when it fails. -/
theorem C17_undated_entry_is_never_fresh (env : Env) (stores : CacheStorage)
    (request : Request) (r : Response)
    (hlane : lane request.url = Lane.cacheFirst)
    (hmatch : cachesMatch stores request = some r)
    (hdate : headersGet r.headers "date" = none) :
    (fetchHandler env stores request).fetched = [request] ∧
    (∀ n, env.net request = some n →
      (fetchHandler env stores request).reply = Reply.response n) ∧
    (env.net request = none → (fetchHandler env stores request).reply = Reply.response r) := by
  have hcf : fetchHandler env stores request = fetchFromNetwork env stores request (some r) := by
    have h := cacheFirst_not_fresh env stores request r hmatch (isFresh_of_no_date env r hdate)
    simp [fetchHandler, hlane, h]
  rw [hcf]
  refine ⟨fetchFromNetwork_fetched _ _ _ _, fun n hn => fetchFromNetwork_reply _ _ _ _ n hn, ?_⟩
  intro hnet
  simp [fetchFromNetwork, hnet]

/-- C17, amended, at work: the undated stylesheet, online and offline. -/
theorem C17_undated_entry_is_never_fresh_witness :
    (fetchHandler originEnv undatedStores stylesRequest).fetched = [stylesRequest] ∧
    (fetchHandler offlineEnv undatedStores stylesRequest).reply
      = Reply.response undatedCss :=
  ⟨(C17_undated_entry_is_never_fresh originEnv undatedStores stylesRequest undatedCss
      (by decide) (by decide) (by decide)).1,
   (C17_undated_entry_is_never_fresh offlineEnv undatedStores stylesRequest undatedCss
      (by decide) (by decide) (by decide)).2.2 rfl⟩

/-- An entry whose age has reached `CACHE_EXPIRY` fails the expiry check. -/
theorem isFresh_of_expired (env : Env) (r : Response) (s : String) (d : Int)
    (hdate : headersGet r.headers "date" = some s)
    (hparse : env.parseDate s = some d)
    (hage : CACHE_EXPIRY ≤ env.now - d) : isFresh env r = false := by
  have hnot : ¬ (env.now - d < CACHE_EXPIRY) := not_lt.mpr hage
  by_cases hs : s = ""
  · simp [isFresh, hdate, hs]
  · simp [isFresh, hdate, hs, hparse, hnot]

/-- C19: in the cache-first lane a network request is issued whenever no entry
is found or the entry found has an age (`now` minus the time of its `date`
header) of `CACHE_EXPIRY` or more; an age of exactly `CACHE_EXPIRY`,
86,400,000 ms, already counts as expired. -/
theorem C19_miss_or_expired_goes_to_network (env : Env) (stores : CacheStorage)
    (request : Request) (hlane : lane request.url = Lane.cacheFirst) :
    (cachesMatch stores request = none → (fetchHandler env stores request).fetched = [request]) ∧
    (∀ r s d, cachesMatch stores request = some r →
      headersGet r.headers "date" = some s → env.parseDate s = some d →
      CACHE_EXPIRY ≤ env.now - d → (fetchHandler env stores request).fetched = [request]) ∧
    (∀ r s d, cachesMatch stores request = some r →
      headersGet r.headers "date" = some s → env.parseDate s = some d →
      env.now - d = 86400000 → (fetchHandler env stores request).fetched = [request]) ∧
    CACHE_EXPIRY = 86400000 := by
  have hcf : fetchHandler env stores request = cacheFirst env stores request := by
    simp [fetchHandler, hlane]
  have hexp : ∀ r s d, cachesMatch stores request = some r →
      headersGet r.headers "date" = some s → env.parseDate s = some d →
      CACHE_EXPIRY ≤ env.now - d → (fetchHandler env stores request).fetched = [request] := by
    intro r s d hm hdate hparse hage
    rw [hcf, cacheFirst_not_fresh env stores request r hm
      (isFresh_of_expired env r s d hdate hparse hage)]
    exact fetchFromNetwork_fetched _ _ _ _
  refine ⟨?_, hexp, ?_, rfl⟩
  · intro hmiss
    rw [hcf, cacheFirst_miss env stores request hmiss]
    exact fetchFromNetwork_fetched _ _ _ _
  · intro r s d hm hdate hparse hage
    exact hexp r s d hm hdate hparse (by rw [hage]; decide)

/-- C19 at work: the stylesheet requested exactly 24 hours after its date. -/
theorem C19_miss_or_expired_goes_to_network_witness :
    boundaryEnv.now - 1767225600000 = 86400000 ∧
    (fetchHandler boundaryEnv sampleStores stylesRequest).fetched = [stylesRequest] :=
  ⟨by decide,
   (C19_miss_or_expired_goes_to_network boundaryEnv sampleStores stylesRequest
      (by decide)).2.2.1 sampleCss "Thu, 01 Jan 2026 00:00:00 GMT" 1767225600000
      (by decide) (by decide) (by decide) (by decide)⟩

/-! ## The directory: the search -/

/-- The white space of the code is the white space of the specification. -/
theorem isJsSpace_eq_isWhiteSpace : isJsSpace = isWhiteSpace := by
  funext c
  rw [Bool.eq_iff_iff]
  simp only [isJsSpace, isWhiteSpace, whiteSpaceCodes, Bool.or_eq_true, Bool.and_eq_true,
    decide_eq_true_eq, List.contains_eq_any_beq, List.any_cons, List.any_nil, beq_iff_eq,
    Bool.or_false]
  omega

/-- The `trim()` of the code gives the trimmed text of the specification. -/
theorem jsTrim_eq_trimmed (s : String) : jsTrim s = trimmed s := by
  unfold jsTrim trimmed List.rdropWhile
  rw [isJsSpace_eq_isWhiteSpace]

/-- Dropping leading characters leaves nothing exactly when the whole list is
dropped. -/
theorem dropWhile_twice_eq_nil_iff (p : Char → Bool) (l : List Char) :
    ((l.dropWhile p).reverse.dropWhile p).reverse = [] ↔ ∀ c ∈ l, p c = true := by
  rw [List.reverse_eq_nil_iff, List.dropWhile_eq_nil_iff]
  constructor
  · intro h
    have hnil : l.dropWhile p = [] := by
      cases hd : l.dropWhile p with
      | nil => rfl
      | cons x rest =>
        have hx : p x = true := h x (by rw [hd]; simp)
        have hhead := List.head_dropWhile_not p l (by rw [hd]; simp)
        simp only [hd, List.head_cons] at hhead
        rw [hx] at hhead
        exact absurd hhead (by simp)
    exact List.dropWhile_eq_nil_iff.mp hnil
  · intro h
    rw [List.dropWhile_eq_nil_iff.mpr h]
    simp

/-- The trimmed text is empty exactly when the text is blank. -/
theorem jsTrim_eq_empty_iff (s : String) : jsTrim s = "" ↔ IsBlank s := by
  unfold jsTrim IsBlank
  rw [← isJsSpace_eq_isWhiteSpace, ← dropWhile_twice_eq_nil_iff isJsSpace s.data]
  constructor
  · intro h
    exact congrArg String.data h
  · intro h
    rw [h]

/-- The code reads the text of a value that is falsy only when empty. -/
theorem textOf_of_readAsIs (value : JsValue) (h : ReadAsIs value) :
    textOf value = value.text := by
  unfold textOf
  cases ht : value.truthy with
  | true => rfl
  | false => simp [h ht]

/-- The code reads the text of a cell whose value is falsy only when empty. -/
theorem textOf_cellAt (row : Row) (index : Nat) (h : ∀ value ∈ row, ReadAsIs value) :
    textOf (cellAt row index) = cellText row index := by
  unfold cellAt cellText
  cases hget : row.get? index with
  | none => rfl
  | some value => exact textOf_of_readAsIs value (h value (List.get?_mem hget))

/-- The non-empty pieces of `split(/\s+/)` are the non-empty pieces between
white space characters. -/
theorem splitSpaces_words (cs piece : List Char) (inSpace : Bool)
    (h : inSpace = true → piece = []) :
    (splitSpaces cs piece inSpace).filter (fun word => !word.isEmpty)
      = (List.splitOnP.go isJsSpace cs piece).filter (fun word => !word.isEmpty) := by
  induction cs generalizing piece inSpace with
  | nil => simp [splitSpaces, List.splitOnP.go]
  | cons c cs ih =>
    unfold splitSpaces List.splitOnP.go
    cases hc : isJsSpace c with
    | false =>
      simp only [Bool.false_eq_true, if_false]
      exact ih (c :: piece) false (by simp)
    | true =>
      simp only [if_true]
      cases inSpace with
      | true =>
        have hp : piece = [] := h rfl
        subst hp
        simp only [if_true, List.reverse_nil, List.filter_cons, List.isEmpty_nil,
          Bool.not_true, Bool.false_eq_true, if_false]
        exact ih [] true (fun _ => rfl)
      | false =>
        simp only [Bool.false_eq_true, if_false, List.filter_cons]
        rw [ih [] true (fun _ => rfl)]

/-- The search words of the code are the words of the text. -/
theorem searchWords_mem (s : String) (w : String) :
    w ∈ (jsSplitSpaces s).filter (fun word => word.length > 0) ↔ w.data ∈ wordsOf s := by
  unfold jsSplitSpaces wordsOf List.splitOnP
  rw [← isJsSpace_eq_isWhiteSpace, ← splitSpaces_words s.data [] false (by simp)]
  simp only [List.mem_filter, List.mem_map, decide_eq_true_eq]
  constructor
  · rintro ⟨⟨l, hl, rfl⟩, hlen⟩
    refine ⟨hl, ?_⟩
    cases l with
    | nil => simp at hlen
    | cons a l => simp
  · rintro ⟨hw, hne⟩
    refine ⟨⟨w.data, hw, rfl⟩, ?_⟩
    cases hd : w.data with
    | nil => rw [hd] at hne; simp at hne
    | cons a l =>
      have : w.length = (a :: l).length := by rw [← hd]; rfl
      rw [this]; simp

/-- The callback of `filters.every` decides the condition on one position. -/
theorem filterPasses_iff (toLowerCase : String → String) (row : Row)
    (filter : JsValue) (index : Nat) :
    filterPasses toLowerCase row filter index = true ↔
      (jsTrim (textOf filter) ≠ "" →
        ∀ word ∈ wordsOf (toLowerCase (jsTrim (textOf filter))),
          word <:+: (toLowerCase (textOf (cellAt row index))).data) := by
  unfold filterPasses
  by_cases hblank : jsTrim (textOf filter) = ""
  · simp [hblank]
  · simp only [hblank, if_false, List.all_eq_true, ne_eq, not_false_eq_true, forall_const]
    constructor
    · intro h word hword
      have hmem := (searchWords_mem (toLowerCase (jsTrim (textOf filter))) (String.mk word)).mpr hword
      exact (includes_iff _ _).mp (h _ hmem)
    · intro h w hw
      exact (includes_iff _ _).mpr (h w.data ((searchWords_mem _ w).mp hw))

/-- `filters.every` visits every position with its index. -/
theorem everyFilter_iff (toLowerCase : String → String) (row : Row)
    (filters : List JsValue) (start : Nat) :
    everyFilter toLowerCase row filters start = true ↔
      ∀ i filter, filters.get? i = some filter →
        filterPasses toLowerCase row filter (start + i) = true := by
  induction filters generalizing start with
  | nil => simp [everyFilter]
  | cons f rest ih =>
    simp only [everyFilter, Bool.and_eq_true, ih]
    constructor
    · rintro ⟨h0, hrest⟩ i filter hget
      cases i with
      | zero =>
        simp only [List.get?_cons_zero, Option.some.injEq] at hget
        subst hget
        simpa using h0
      | succ j =>
        simp only [List.get?_cons_succ] at hget
        have := hrest j filter hget
        rwa [Nat.add_assoc, Nat.add_comm 1 j] at this
    · intro h
      refine ⟨by simpa using h 0 f rfl, ?_⟩
      intro i filter hget
      have := h (i + 1) filter (by simpa using hget)
      rwa [Nat.add_assoc, Nat.add_comm 1 i]

/-- On a row and filters whose values are falsy only when empty, the callback
of `data.filter` decides the condition of the specification. -/
theorem everyFilter_eq_satisfies (toLowerCase : String → String) (row : Row)
    (filters : List JsValue)
    (hrow : ∀ value ∈ row, ReadAsIs value)
    (hfilters : ∀ filter ∈ filters, ReadAsIs filter) :
    everyFilter toLowerCase row filters 0 = true ↔ RowSatisfies toLowerCase row filters := by
  rw [everyFilter_iff]
  unfold RowSatisfies
  have hstep : ∀ i filter, filters.get? i = some filter →
      (filterPasses toLowerCase row filter i = true ↔
        (¬ IsBlank filter.text →
          ∀ word ∈ wordsOf (toLowerCase (trimmed filter.text)),
            word <:+: (toLowerCase (cellText row i)).data)) := by
    intro i filter hget
    rw [filterPasses_iff, textOf_of_readAsIs filter (hfilters filter (List.get?_mem hget)),
      textOf_cellAt row i hrow, ne_eq, jsTrim_eq_empty_iff, jsTrim_eq_trimmed]
  constructor
  · intro h i filter hget
    exact (hstep i filter hget).mp (by simpa using h i filter hget)
  · intro h i filter hget
    rw [Nat.zero_add]
    exact (hstep i filter hget).mpr (h i filter hget)

/-- `filters.some` is false exactly when every filter is blank. -/
theorem someFilter_eq_false_iff (filters : List JsValue) :
    someFilter filters = false ↔ ∀ filter ∈ filters, jsTrim (textOf filter) = "" := by
  unfold someFilter
  rw [List.any_eq_false]
  simp

/-- Blank filters keep every row. -/
theorem everyFilter_of_blank (toLowerCase : String → String) (row : Row)
    (filters : List JsValue)
    (hblank : ∀ filter ∈ filters, jsTrim (textOf filter) = "") :
    everyFilter toLowerCase row filters 0 = true := by
  rw [everyFilter_iff]
  intro i filter hget
  rw [filterPasses_iff]
  intro hne
  exact absurd (hblank filter (List.get?_mem hget)) hne

/-- A filter that keeps everything changes nothing. -/
theorem filter_of_all_true {α : Type} (l : List α) (p : α → Bool)
    (h : ∀ a, p a = true) : l.filter p = l := by
  rw [List.filter_eq_self]
  exact fun a _ => h a

/-- Both implementations filter their rows with the callback of `filters.every`
whenever `filters` is given. -/
theorem searchArtists_eq_filter (toLowerCase : String → String) (data : List Row)
    (fs : List JsValue) :
    (AppsScript.searchArtists toLowerCase data (some fs)
      = data.filter (fun row => everyFilter toLowerCase row fs 0)) ∧
    (Static.searchArtists toLowerCase (some fs)
      = Static.SAMPLE_ARTISTS.filter (fun row => everyFilter toLowerCase row fs 0)) := by
  cases hsome : someFilter fs with
  | true =>
    have hlen : fs.length > 0 := by
      cases fs with
      | nil => simp [someFilter] at hsome
      | cons f rest => simp
    have hne : ¬ fs.length = 0 := Nat.ne_of_gt hlen
    constructor
    · simp [AppsScript.searchArtists, hsome, hlen]
    · simp [Static.searchArtists, hsome, hne]
  | false =>
    have hblank := (someFilter_eq_false_iff fs).mp hsome
    have hkeep : ∀ row, everyFilter toLowerCase row fs 0 = true :=
      fun row => everyFilter_of_blank toLowerCase row fs hblank
    constructor
    · rw [filter_of_all_true _ _ hkeep]
      simp [AppsScript.searchArtists, hsome]
    · rw [filter_of_all_true _ _ hkeep]
      show (if fs.length = 0 then Static.SAMPLE_ARTISTS
        else if (!someFilter fs) = true then Static.SAMPLE_ARTISTS
        else Static.SAMPLE_ARTISTS.filter
          (fun row => everyFilter toLowerCase row fs 0)) = Static.SAMPLE_ARTISTS
      rw [hsome]
      split <;> rfl

/-- Every string is a value the code reads as it is. -/
theorem readAsIs_string (s : String) : ReadAsIs (JsValue.string s) := by
  intro h
  simpa [JsValue.string] using h

/-- Where the code agrees with the specification: on rows and filters whose
values are falsy only when empty (strings, non-zero numbers, `true`, dates),
both implementations of `searchArtists` return their rows unchanged when
`filters` is absent, empty or all blank, and otherwise return, in their original
order, exactly the rows for which every position whose filter is non-blank
after trimming has each whitespace-separated word of the trimmed, lower-cased
filter as a substring of the lower-cased text of the cell at that position. -/
theorem search_returns_the_matching_rows (toLowerCase : String → String)
    (data : List Row) (filters : Option (List JsValue))
    (hfilters : ∀ fs, filters = some fs → ∀ filter ∈ fs, ReadAsIs filter) :
    (NoFilter filters →
      AppsScript.searchArtists toLowerCase data filters = data ∧
      Static.searchArtists toLowerCase filters = Static.SAMPLE_ARTISTS) ∧
    (∀ fs, filters = some fs →
      ∃ keep : Row → Bool,
        (∀ row, (∀ value ∈ row, ReadAsIs value) →
          (keep row = true ↔ RowSatisfies toLowerCase row fs)) ∧
        AppsScript.searchArtists toLowerCase data filters = data.filter keep ∧
        Static.searchArtists toLowerCase filters = Static.SAMPLE_ARTISTS.filter keep) := by
  constructor
  · intro hno
    cases filters with
    | none => exact ⟨rfl, rfl⟩
    | some fs =>
      have hblank : ∀ filter ∈ fs, jsTrim (textOf filter) = "" := by
        intro filter hmem
        rw [textOf_of_readAsIs filter (hfilters fs rfl filter hmem), jsTrim_eq_empty_iff]
        exact hno fs rfl filter hmem
      have hkeep : ∀ row, everyFilter toLowerCase row fs 0 = true :=
        fun row => everyFilter_of_blank toLowerCase row fs hblank
      rw [(searchArtists_eq_filter toLowerCase data fs).1,
        (searchArtists_eq_filter toLowerCase data fs).2, filter_of_all_true _ _ hkeep,
        filter_of_all_true _ _ hkeep]
      exact ⟨rfl, rfl⟩
  · intro fs hfs
    subst hfs
    exact ⟨fun row => everyFilter toLowerCase row fs 0,
      fun row hrow => everyFilter_eq_satisfies toLowerCase row fs hrow (hfilters fs rfl),
      (searchArtists_eq_filter toLowerCase data fs).1,
      (searchArtists_eq_filter toLowerCase data fs).2⟩

/-- A search of three rows for the words "sing" and "er" in the second column. -/
theorem search_example :
    AppsScript.searchArtists lower
        [[JsValue.string "Ahmad Al-Dojan", JsValue.string "Singer"],
         [JsValue.string "Nora", JsValue.null], [JsValue.string "Khalid"]]
        (some [JsValue.string "  ", JsValue.string " SING  er "])
      = [[JsValue.string "Ahmad Al-Dojan", JsValue.string "Singer"]] := by
  decide

/-- C18, at the input where the code departs from it: the sheet has the row
`['Ahmad', 0, '', '', '', '', '', '']` and the filters are `['', '0']`. The
second filter is not blank and its one word, "0", is a substring of the text of
the second cell, "0", so the row satisfies the condition of the claim; yet
`String(row[index] || '')` reads the cell as the empty text and the search of
`data.js` returns no row. With the string `'0'` in the cell the same search
returns the row. -/
theorem C18_zero_cell_is_read_as_empty :
    RowSatisfies lower zeroRow [JsValue.string "", JsValue.string "0"] ∧
    ¬ NoFilter (some [JsValue.string "", JsValue.string "0"]) ∧
    cellText zeroRow 1 = "0" ∧
    textOf (cellAt zeroRow 1) = "" ∧
    AppsScript.searchArtists lower [zeroRow]
      (some [JsValue.string "", JsValue.string "0"]) = [] ∧
    AppsScript.searchArtists lower [zeroTextRow]
      (some [JsValue.string "", JsValue.string "0"]) = [zeroTextRow] := by
  refine ⟨?_, ?_, by decide, by decide, by decide, by decide⟩
  · intro i filter hget hblank word hword
    match i, hget with
    | 0, hget =>
      simp only [List.get?_cons_zero, Option.some.injEq] at hget
      subst hget
      exact absurd (fun c hc => by simp [JsValue.string] at hc) hblank
    | 1, hget =>
      simp only [List.get?_cons_succ, List.get?_cons_zero, Option.some.injEq] at hget
      subst hget
      have hw : wordsOf (lower (trimmed (JsValue.string "0").text)) = [['0']] := by decide
      rw [hw, List.mem_singleton] at hword
      subst hword
      have hc : (lower (cellText zeroRow 1)).data = ['0'] := by decide
      rw [hc]
    | n + 2, hget => simp at hget
  · intro hno
    have h := hno _ rfl (JsValue.string "0") (by simp) '0' (by simp [JsValue.string])
    exact absurd h (by decide)

/-! ## The directory: the cache simulation -/

/-- The first call of `getCachedData` delivers the full data set of its type. -/
theorem getCachedData_first_load (now : Int) (type : Static.DataType) :
    (Static.getCachedData Static.dataCache now type).1 =
      match type with
      | Static.DataType.artists => some Static.getAllArtists
      | Static.DataType.opportunities => some Static.getAllOpportunities := by
  cases type <;> rfl

/-- C20, at the input where the code departs from it: `getCachedData('artists')`
followed one second later, its timer completed, by
`getCachedData('opportunities')`. The second call finds `lastUpdate` recent and
returns `dataCache.opportunities`, which was never loaded: it delivers `null`
in place of the opportunities. -/
theorem C20_other_type_is_delivered_as_null :
    Static.deliveries Static.dataCache
        [(1767225600000, Static.DataType.artists),
         (1767225601000, Static.DataType.opportunities)]
      = [some Static.getAllArtists, none] := by
  decide

/-! ## The worker as a machine: what the stores never hold -/

/-- The cache-first lane takes the URLs that do not contain the text. -/
theorem lane_cacheFirst_iff (url : String) :
    lane url = Lane.cacheFirst ↔ ¬ SHEETS_API.data <:+: url.data := by
  rw [← includes_iff]
  unfold lane
  cases includes url SHEETS_API <;> simp

/-- The always-network lane takes the URLs that contain the text. -/
theorem lane_alwaysNetwork_iff (url : String) :
    lane url = Lane.alwaysNetwork ↔ SHEETS_API.data <:+: url.data := by
  rw [← includes_iff]
  unfold lane
  cases includes url SHEETS_API <;> simp

/-- With no store there is no entry. -/
theorem noSheetsEntry_nil : NoSheetsEntry [] := by
  intro s hs
  simp at hs

/-- Dropping stores keeps the invariant. -/
theorem noSheetsEntry_of_sublist (stores kept : CacheStorage)
    (hsub : ∀ s ∈ kept, s ∈ stores) (h : NoSheetsEntry stores) : NoSheetsEntry kept :=
  fun s hs => h s (hsub s hs)

/-- Deleting stores keeps the invariant. -/
theorem noSheetsEntry_filter (stores : CacheStorage) (p : String × Cache → Bool)
    (h : NoSheetsEntry stores) : NoSheetsEntry (stores.filter p) :=
  noSheetsEntry_of_sublist stores _ (fun _ hs => (List.mem_filter.mp hs).1) h

/-- Opening a store keeps the invariant. -/
theorem noSheetsEntry_cachesOpen (stores : CacheStorage) (name : String)
    (h : NoSheetsEntry stores) : NoSheetsEntry (cachesOpen stores name) := by
  unfold cachesOpen
  split
  · exact h
  · intro s hs e he
    rcases List.mem_append.mp hs with hold | hnew
    · exact h s hold e he
    · simp only [List.mem_singleton] at hnew
      subst hnew
      simp at he

/-- A put under a URL without the text keeps the invariant. -/
theorem noSheetsEntry_cachesPut (stores : CacheStorage) (name : String)
    (request : Request) (r : Response) (hurl : ¬ SHEETS_API.data <:+: request.url.data)
    (h : NoSheetsEntry stores) : NoSheetsEntry (cachesPut stores name request r) := by
  intro s hs e he
  unfold cachesPut at hs
  obtain ⟨old, hold, hmap⟩ := List.mem_map.mp hs
  by_cases hname : old.1 = name
  · simp only [hname, beq_self_eq_true, if_true] at hmap
    subst hmap
    unfold cacheStore at he
    rcases List.mem_append.mp he with hkept | hnew
    · exact h old hold e (List.mem_filter.mp hkept).1
    · simp only [List.mem_singleton] at hnew
      subst hnew
      exact hurl
  · have hb : (old.1 == name) = false := by simpa using hname
    simp only [hb, Bool.false_eq_true, if_false] at hmap
    subst hmap
    exact h old hold e he

/-- A batch of puts under URLs without the text keeps the invariant. -/
theorem noSheetsEntry_foldl_put (rs : List (String × Response)) (stores : CacheStorage)
    (name : String) (hurls : ∀ e ∈ rs, ¬ SHEETS_API.data <:+: (getRequest e.1).url.data)
    (h : NoSheetsEntry stores) :
    NoSheetsEntry (rs.foldl (fun acc e => cachesPut acc name (getRequest e.1) e.2) stores) := by
  induction rs generalizing stores with
  | nil => exact h
  | cons e rest ih =>
    rw [List.foldl_cons]
    apply ih
    · exact fun x hx => hurls x (List.mem_cons_of_mem _ hx)
    · exact noSheetsEntry_cachesPut stores name (getRequest e.1) e.2
        (hurls e (List.mem_cons_self _ _)) h

/-- No URL of the app shell contains the text. -/
theorem urlsToCache_without_sheets :
    ∀ url ∈ urlsToCache, ¬ SHEETS_API.data <:+: url.data := by
  intro url hurl
  rw [← includes_iff]
  have hall : ∀ u ∈ urlsToCache, includes u SHEETS_API = false := by decide
  rw [hall url hurl]
  simp

/-- The install handler keeps the invariant. -/
theorem noSheetsEntry_install (env : Env) (stores : CacheStorage)
    (h : NoSheetsEntry stores) : NoSheetsEntry (installHandler env stores).stores := by
  rw [installHandler_stores]
  cases hrs : addAllResponses env urlsToCache with
  | none => exact noSheetsEntry_cachesOpen stores CACHE_NAME h
  | some rs =>
    obtain ⟨hkeys, _⟩ := addAllResponses_some env urlsToCache rs hrs
    apply noSheetsEntry_foldl_put rs _ CACHE_NAME _ (noSheetsEntry_cachesOpen stores CACHE_NAME h)
    intro e he
    show ¬ SHEETS_API.data <:+: e.1.data
    apply urlsToCache_without_sheets
    rw [← hkeys]
    exact List.mem_map_of_mem Prod.fst he

/-- The stores after the activation, whether or not a deletion failed. -/
theorem activateHandler_stores (env : Env) (stores : CacheStorage) :
    (activateHandler env stores).stores
      = stores.filter (fun s => s.1 == CACHE_NAME || env.deleteFails s.1) := by
  rw [← activate_stores]
  unfold activateHandler
  dsimp only
  split <;> rfl

/-- The activate handler keeps the invariant. -/
theorem noSheetsEntry_activate (env : Env) (stores : CacheStorage)
    (h : NoSheetsEntry stores) : NoSheetsEntry (activateHandler env stores).stores := by
  rw [activateHandler_stores]
  exact noSheetsEntry_filter stores _ h

/-- The message handler keeps the invariant. -/
theorem noSheetsEntry_message (stores : CacheStorage) (event : MessageEvent)
    (h : NoSheetsEntry stores) : NoSheetsEntry (messageHandler stores event).stores := by
  by_cases hdata : event.data = some (some "CLEAR_CACHE")
  · rw [messageHandler_clear_stores stores event hdata]
    exact noSheetsEntry_filter stores _ h
  · have : (messageHandler stores event).stores = stores := by
      simp [messageHandler, hdata]
    rw [this]
    exact h

/-- The always-network lane leaves the stores as they were. -/
theorem alwaysNetwork_stores (env : Env) (stores : CacheStorage) (request : Request) :
    (alwaysNetwork env stores request).stores = stores := by
  unfold alwaysNetwork
  cases env.net request with
  | none => rfl
  | some r =>
    dsimp only
    split <;> rfl

/-- The network step leaves the stores as they were, opens the store
`CACHE_NAME`, or opens it and puts under the request. -/
theorem fetchFromNetwork_stores_cases (env : Env) (stores : CacheStorage)
    (request : Request) (cached : Option Response) :
    (fetchFromNetwork env stores request cached).stores = stores ∨
    (fetchFromNetwork env stores request cached).stores = cachesOpen stores CACHE_NAME ∨
    ∃ r, (fetchFromNetwork env stores request cached).stores
      = cachesPut (cachesOpen stores CACHE_NAME) CACHE_NAME request r := by
  unfold fetchFromNetwork
  cases env.net request with
  | none => exact Or.inl rfl
  | some r =>
    dsimp only
    split
    · exact Or.inl rfl
    · unfold storeResponse
      dsimp only
      split
      · exact Or.inr (Or.inr ⟨r, rfl⟩)
      · exact Or.inr (Or.inl rfl)

/-- The fetch handler keeps the invariant. -/
theorem noSheetsEntry_fetch (env : Env) (stores : CacheStorage) (request : Request)
    (h : NoSheetsEntry stores) :
    NoSheetsEntry (fetchHandler env stores request).stores := by
  unfold fetchHandler
  cases hlane : lane request.url with
  | alwaysNetwork =>
    dsimp only
    rw [alwaysNetwork_stores]
    exact h
  | cacheFirst =>
    dsimp only
    have hurl : ¬ SHEETS_API.data <:+: request.url.data :=
      (lane_cacheFirst_iff request.url).mp hlane
    have hstep : ∀ cached,
        NoSheetsEntry (fetchFromNetwork env stores request cached).stores := by
      intro cached
      rcases fetchFromNetwork_stores_cases env stores request cached with
        hsame | hopen | ⟨r, hput⟩
      · rw [hsame]; exact h
      · rw [hopen]; exact noSheetsEntry_cachesOpen stores CACHE_NAME h
      · rw [hput]
        exact noSheetsEntry_cachesPut _ CACHE_NAME request r hurl
          (noSheetsEntry_cachesOpen stores CACHE_NAME h)
    unfold cacheFirst
    cases cachesMatch stores request with
    | none => exact hstep none
    | some c =>
      dsimp only
      split
      · exact h
      · exact hstep (some c)

/-- Every event keeps the invariant. -/
theorem noSheetsEntry_handle (stores : CacheStorage) (event : WorkerEvent)
    (h : NoSheetsEntry stores) : NoSheetsEntry (handle stores event) := by
  cases event with
  | install env => exact noSheetsEntry_install env stores h
  | activate env => exact noSheetsEntry_activate env stores h
  | fetch env request => exact noSheetsEntry_fetch env stores request h
  | message event => exact noSheetsEntry_message stores event h

/-- Every sequence of events keeps the invariant. -/
theorem noSheetsEntry_run (stores : CacheStorage) (events : List WorkerEvent)
    (h : NoSheetsEntry stores) : NoSheetsEntry (run stores events) := by
  induction events generalizing stores with
  | nil => exact h
  | cons event rest ih =>
    unfold run at ih ⊢
    rw [List.foldl_cons]
    exact ih (handle stores event) (noSheetsEntry_handle stores event h)

/-- A URL without its fragment is the beginning of the URL. -/
theorem stripFragment_within_url (url : String) :
    (stripFragment url).data <+: url.data := by
  unfold stripFragment
  exact List.takeWhile_prefix _

/-- Under the invariant `caches.match` finds nothing for a request whose URL,
the fragment excluded, contains the text. -/
theorem cachesMatch_of_noSheetsEntry (stores : CacheStorage) (request : Request)
    (h : NoSheetsEntry stores)
    (hurl : SHEETS_API.data <:+: (stripFragment request.url).data) :
    cachesMatch stores request = none := by
  rw [cachesMatch_eq_none_iff]
  intro s hs
  unfold cacheMatch
  rw [Option.map_eq_none', List.find?_eq_none]
  intro e he heq
  have hkey : stripFragment request.url = stripFragment e.1.url :=
    requestMatches_url request e.1 e.2 heq
  rw [hkey] at hurl
  exact h s hs e he (hurl.trans (stripFragment_within_url e.1.url).isInfix)

/-- C21 as stated fails: after the install the store holds the home page under
`/`; the request for `/#sheets.googleapis.com` has the text in its URL, so it
takes the always-network lane, and when it fails on the network
`caches.match`, which compares URLs without their fragments, finds the entry of
`/`, which is the reply. -/
theorem C21_fragment_request_is_answered_from_the_store :
    lane fragmentRequest.url = Lane.alwaysNetwork ∧
    offlineEnv.net fragmentRequest = none ∧
    (run [] [WorkerEvent.install originEnv]).map (fun s => (s.1, s.2.map (fun e => e.1.url)))
      = [(CACHE_NAME, urlsToCache)] ∧
    cachesMatch (run [] [WorkerEvent.install originEnv]) fragmentRequest = some sampleCss ∧
    (fetchHandler offlineEnv (run [] [WorkerEvent.install originEnv]) fragmentRequest).reply
      = Reply.response sampleCss := by
  decide

/-- C21, amended: in every state reached from no store at all through the
install, activate, fetch and message handlers, no store holds an entry whose
request URL contains `sheets.googleapis.com`; so whenever a request whose URL
contains the text before its fragment (such a request is of the always-network
lane) fails on the network, `caches.match` finds nothing and the reply of the
handler is `undefined`. -/
theorem C21_no_sheets_entry_is_ever_stored (events : List WorkerEvent) :
    NoSheetsEntry (run [] events) ∧
    (∀ env request, SHEETS_API.data <:+: (stripFragment request.url).data →
      env.net request = none →
      lane request.url = Lane.alwaysNetwork ∧
      cachesMatch (run [] events) request = none ∧
      (fetchHandler env (run [] events) request).reply = Reply.undefined) := by
  have hinv : NoSheetsEntry (run [] events) := noSheetsEntry_run [] events noSheetsEntry_nil
  refine ⟨hinv, ?_⟩
  intro env request hurl hnet
  have hlane : lane request.url = Lane.alwaysNetwork :=
    (lane_alwaysNetwork_iff request.url).mpr
      (hurl.trans (stripFragment_within_url request.url).isInfix)
  have hmiss : cachesMatch (run [] events) request = none :=
    cachesMatch_of_noSheetsEntry _ request hinv hurl
  refine ⟨hlane, hmiss, ?_⟩
  simp [fetchHandler, hlane, alwaysNetwork, hnet, alwaysNetworkCatch, hmiss]

/-- C21, amended, at work: after a day of events the stores hold the stylesheet
only, and a request to the spreadsheet API made offline gets no response. -/
theorem C21_no_sheets_entry_is_ever_stored_witness :
    (run [] sampleDay).map (fun s => (s.1, s.2.map (fun e => e.1.url)))
      = [(CACHE_NAME, ["/styles.css"])] ∧
    cachesMatch (run [] sampleDay) sheetsRequest = none ∧
    (fetchHandler offlineEnv (run [] sampleDay) sheetsRequest).reply = Reply.undefined :=
  ⟨by decide,
   ((C21_no_sheets_entry_is_ever_stored sampleDay).2 offlineEnv sheetsRequest
      (by decide) rfl).2⟩

end SaudiMusicDb
